import Mathlib

/-!
Verification of the capture-id update script (`scripts/update_capture_ids.py`).

The development shallowly embeds the script's data and control flow in Lean:
Python `bytes` values become `List Nat` with every element below 256, Python
dicts (insertion-ordered) become association lists updated in place, the
AES-128-ECB single-block primitive used by `encrypt_title_id` and the MD5
digest used by `get_capture_id_key` are implemented executably, and the
`main` routine becomes a pure function of its environment and of the already
parsed per-source records.
-/

set_option maxRecDepth 4000

/-! ## Bytes and hex strings -/

/-- Python string slicing `s[:n]` (strings are sequences of code points). -/
def takeChars (s : String) (n : Nat) : String :=
  ⟨s.data.take n⟩

/-- Value of one hexadecimal digit, accepting both cases (as `bytes.fromhex`
and the script's explicit `"0123456789ABCDEFabcdef"` membership test do). -/
def hexVal (c : Char) : Option Nat :=
  if 48 ≤ c.toNat ∧ c.toNat ≤ 57 then some (c.toNat - 48)
  else if 97 ≤ c.toNat ∧ c.toNat ≤ 102 then some (c.toNat - 87)
  else if 65 ≤ c.toNat ∧ c.toNat ≤ 70 then some (c.toNat - 55)
  else none

/-- ASCII whitespace skipped by Python's `bytes.fromhex`. -/
def isAsciiWs (c : Char) : Bool :=
  c = ' ' ∨ c = '\t' ∨ c = '\n' ∨ c = '\r' ∨ c = Char.ofNat 11 ∨ c = Char.ofNat 12

/-- Worker for `bytesFromHex`: skip ASCII whitespace, then demand two
adjacent hex digits per byte, failing on any other character or on an odd
number of digits — the behaviour of CPython's `bytes.fromhex`. -/
def bytesFromHexAux : List Char → Option (List Nat)
  | [] => some []
  | c :: rest =>
    if isAsciiWs c then bytesFromHexAux rest
    else
      match hexVal c, rest with
      | some hi, c2 :: rest2 =>
        match hexVal c2 with
        | some lo => (bytesFromHexAux rest2).map fun bs => (hi * 16 + lo) :: bs
        | none => none
      | _, _ => none

/-- Model of Python's `bytes.fromhex`, returning `none` where Python raises
`ValueError`. -/
def bytesFromHex (s : String) : Option (List Nat) :=
  bytesFromHexAux s.data

/-- Lowercase hex digits, as produced by Python's `bytes.hex()`. -/
def hexDigitsLower : List Char := "0123456789abcdef".data

/-- Two lowercase hex characters for one byte. -/
def byteToHex (b : Nat) : List Char :=
  [hexDigitsLower.getD (b / 16 % 16) '0', hexDigitsLower.getD (b % 16) '0']

/-- Model of Python's `bytes.hex()`. -/
def bytesToHex (bs : List Nat) : String :=
  ⟨bs.flatMap byteToHex⟩

/-- ASCII uppercasing of one character, the effect of `str.upper()` on the
output of `bytes.hex()`. -/
def pyCharUpper (c : Char) : Char :=
  if 'a' ≤ c ∧ c ≤ 'z' then Char.ofNat (c.toNat - 32) else c

/-- Model of Python's `str.upper()` (ASCII fragment, which covers hex
strings). -/
def pyUpper (s : String) : String :=
  ⟨s.data.map pyCharUpper⟩

/-! ## AES-128, single block (the primitive behind `AES.new(key,
AES.MODE_ECB).encrypt` from pycryptodome)

Bytes are naturals; the reductions modulo 256 are exactly the places where
an 8-bit register would wrap. -/

/-- The AES S-box. -/
def sboxTable : List Nat :=
  [0x63, 0x7c, 0x77, 0x7b, 0xf2, 0x6b, 0x6f, 0xc5, 0x30, 0x01, 0x67, 0x2b, 0xfe, 0xd7, 0xab, 0x76,
   0xca, 0x82, 0xc9, 0x7d, 0xfa, 0x59, 0x47, 0xf0, 0xad, 0xd4, 0xa2, 0xaf, 0x9c, 0xa4, 0x72, 0xc0,
   0xb7, 0xfd, 0x93, 0x26, 0x36, 0x3f, 0xf7, 0xcc, 0x34, 0xa5, 0xe5, 0xf1, 0x71, 0xd8, 0x31, 0x15,
   0x04, 0xc7, 0x23, 0xc3, 0x18, 0x96, 0x05, 0x9a, 0x07, 0x12, 0x80, 0xe2, 0xeb, 0x27, 0xb2, 0x75,
   0x09, 0x83, 0x2c, 0x1a, 0x1b, 0x6e, 0x5a, 0xa0, 0x52, 0x3b, 0xd6, 0xb3, 0x29, 0xe3, 0x2f, 0x84,
   0x53, 0xd1, 0x00, 0xed, 0x20, 0xfc, 0xb1, 0x5b, 0x6a, 0xcb, 0xbe, 0x39, 0x4a, 0x4c, 0x58, 0xcf,
   0xd0, 0xef, 0xaa, 0xfb, 0x43, 0x4d, 0x33, 0x85, 0x45, 0xf9, 0x02, 0x7f, 0x50, 0x3c, 0x9f, 0xa8,
   0x51, 0xa3, 0x40, 0x8f, 0x92, 0x9d, 0x38, 0xf5, 0xbc, 0xb6, 0xda, 0x21, 0x10, 0xff, 0xf3, 0xd2,
   0xcd, 0x0c, 0x13, 0xec, 0x5f, 0x97, 0x44, 0x17, 0xc4, 0xa7, 0x7e, 0x3d, 0x64, 0x5d, 0x19, 0x73,
   0x60, 0x81, 0x4f, 0xdc, 0x22, 0x2a, 0x90, 0x88, 0x46, 0xee, 0xb8, 0x14, 0xde, 0x5e, 0x0b, 0xdb,
   0xe0, 0x32, 0x3a, 0x0a, 0x49, 0x06, 0x24, 0x5c, 0xc2, 0xd3, 0xac, 0x62, 0x91, 0x95, 0xe4, 0x79,
   0xe7, 0xc8, 0x37, 0x6d, 0x8d, 0xd5, 0x4e, 0xa9, 0x6c, 0x56, 0xf4, 0xea, 0x65, 0x7a, 0xae, 0x08,
   0xba, 0x78, 0x25, 0x2e, 0x1c, 0xa6, 0xb4, 0xc6, 0xe8, 0xdd, 0x74, 0x1f, 0x4b, 0xbd, 0x8b, 0x8a,
   0x70, 0x3e, 0xb5, 0x66, 0x48, 0x03, 0xf6, 0x0e, 0x61, 0x35, 0x57, 0xb9, 0x86, 0xc1, 0x1d, 0x9e,
   0xe1, 0xf8, 0x98, 0x11, 0x69, 0xd9, 0x8e, 0x94, 0x9b, 0x1e, 0x87, 0xe9, 0xce, 0x55, 0x28, 0xdf,
   0x8c, 0xa1, 0x89, 0x0d, 0xbf, 0xe6, 0x42, 0x68, 0x41, 0x99, 0x2d, 0x0f, 0xb0, 0x54, 0xbb, 0x16]

/-- The inverse AES S-box. -/
def invSboxTable : List Nat :=
  [0x52, 0x09, 0x6a, 0xd5, 0x30, 0x36, 0xa5, 0x38, 0xbf, 0x40, 0xa3, 0x9e, 0x81, 0xf3, 0xd7, 0xfb,
   0x7c, 0xe3, 0x39, 0x82, 0x9b, 0x2f, 0xff, 0x87, 0x34, 0x8e, 0x43, 0x44, 0xc4, 0xde, 0xe9, 0xcb,
   0x54, 0x7b, 0x94, 0x32, 0xa6, 0xc2, 0x23, 0x3d, 0xee, 0x4c, 0x95, 0x0b, 0x42, 0xfa, 0xc3, 0x4e,
   0x08, 0x2e, 0xa1, 0x66, 0x28, 0xd9, 0x24, 0xb2, 0x76, 0x5b, 0xa2, 0x49, 0x6d, 0x8b, 0xd1, 0x25,
   0x72, 0xf8, 0xf6, 0x64, 0x86, 0x68, 0x98, 0x16, 0xd4, 0xa4, 0x5c, 0xcc, 0x5d, 0x65, 0xb6, 0x92,
   0x6c, 0x70, 0x48, 0x50, 0xfd, 0xed, 0xb9, 0xda, 0x5e, 0x15, 0x46, 0x57, 0xa7, 0x8d, 0x9d, 0x84,
   0x90, 0xd8, 0xab, 0x00, 0x8c, 0xbc, 0xd3, 0x0a, 0xf7, 0xe4, 0x58, 0x05, 0xb8, 0xb3, 0x45, 0x06,
   0xd0, 0x2c, 0x1e, 0x8f, 0xca, 0x3f, 0x0f, 0x02, 0xc1, 0xaf, 0xbd, 0x03, 0x01, 0x13, 0x8a, 0x6b,
   0x3a, 0x91, 0x11, 0x41, 0x4f, 0x67, 0xdc, 0xea, 0x97, 0xf2, 0xcf, 0xce, 0xf0, 0xb4, 0xe6, 0x73,
   0x96, 0xac, 0x74, 0x22, 0xe7, 0xad, 0x35, 0x85, 0xe2, 0xf9, 0x37, 0xe8, 0x1c, 0x75, 0xdf, 0x6e,
   0x47, 0xf1, 0x1a, 0x71, 0x1d, 0x29, 0xc5, 0x89, 0x6f, 0xb7, 0x62, 0x0e, 0xaa, 0x18, 0xbe, 0x1b,
   0xfc, 0x56, 0x3e, 0x4b, 0xc6, 0xd2, 0x79, 0x20, 0x9a, 0xdb, 0xc0, 0xfe, 0x78, 0xcd, 0x5a, 0xf4,
   0x1f, 0xdd, 0xa8, 0x33, 0x88, 0x07, 0xc7, 0x31, 0xb1, 0x12, 0x10, 0x59, 0x27, 0x80, 0xec, 0x5f,
   0x60, 0x51, 0x7f, 0xa9, 0x19, 0xb5, 0x4a, 0x0d, 0x2d, 0xe5, 0x7a, 0x9f, 0x93, 0xc9, 0x9c, 0xef,
   0xa0, 0xe0, 0x3b, 0x4d, 0xae, 0x2a, 0xf5, 0xb0, 0xc8, 0xeb, 0xbb, 0x3c, 0x83, 0x53, 0x99, 0x61,
   0x17, 0x2b, 0x04, 0x7e, 0xba, 0x77, 0xd6, 0x26, 0xe1, 0x69, 0x14, 0x63, 0x55, 0x21, 0x0c, 0x7d]

/-- S-box lookup (index reduced as an 8-bit register). -/
def sbox (b : Nat) : Nat := sboxTable.getD (b % 256) 0

/-- Inverse S-box lookup. -/
def invSbox (b : Nat) : Nat := invSboxTable.getD (b % 256) 0

/-- Multiplication by x in GF(2^8) on an 8-bit register. -/
def xtime (b : Nat) : Nat :=
  if b &&& 0x80 = 0 then (b <<< 1) % 256 else ((b <<< 1) ^^^ 0x1B) % 256

/-- Multiplication by 02 in GF(2^8). -/
def mul2 (b : Nat) : Nat := xtime b

/-- Multiplication by 03 in GF(2^8). -/
def mul3 (b : Nat) : Nat := xtime b ^^^ b

/-- Multiplication by 09 in GF(2^8). -/
def mul9 (b : Nat) : Nat := xtime (xtime (xtime b)) ^^^ b

/-- Multiplication by 0b in GF(2^8). -/
def mul11 (b : Nat) : Nat := xtime (xtime (xtime b)) ^^^ xtime b ^^^ b

/-- Multiplication by 0d in GF(2^8). -/
def mul13 (b : Nat) : Nat := xtime (xtime (xtime b)) ^^^ xtime (xtime b) ^^^ b

/-- Multiplication by 0e in GF(2^8). -/
def mul14 (b : Nat) : Nat := xtime (xtime (xtime b)) ^^^ xtime (xtime b) ^^^ xtime b

/-- One AES state: 16 bytes in column-major order. -/
structure Block where
  b0 : Nat
  b1 : Nat
  b2 : Nat
  b3 : Nat
  b4 : Nat
  b5 : Nat
  b6 : Nat
  b7 : Nat
  b8 : Nat
  b9 : Nat
  b10 : Nat
  b11 : Nat
  b12 : Nat
  b13 : Nat
  b14 : Nat
  b15 : Nat
deriving DecidableEq, Repr

/-- Build a state from (up to) 16 bytes. -/
def mkBlock (l : List Nat) : Block :=
  ⟨l.getD 0 0, l.getD 1 0, l.getD 2 0, l.getD 3 0,
   l.getD 4 0, l.getD 5 0, l.getD 6 0, l.getD 7 0,
   l.getD 8 0, l.getD 9 0, l.getD 10 0, l.getD 11 0,
   l.getD 12 0, l.getD 13 0, l.getD 14 0, l.getD 15 0⟩

/-- The 16 bytes of a state, column-major. -/
def blockList (s : Block) : List Nat :=
  [s.b0, s.b1, s.b2, s.b3, s.b4, s.b5, s.b6, s.b7,
   s.b8, s.b9, s.b10, s.b11, s.b12, s.b13, s.b14, s.b15]

/-- SubBytes. -/
def subBytes (s : Block) : Block :=
  ⟨sbox s.b0, sbox s.b1, sbox s.b2, sbox s.b3,
   sbox s.b4, sbox s.b5, sbox s.b6, sbox s.b7,
   sbox s.b8, sbox s.b9, sbox s.b10, sbox s.b11,
   sbox s.b12, sbox s.b13, sbox s.b14, sbox s.b15⟩

/-- Inverse SubBytes. -/
def invSubBytes (s : Block) : Block :=
  ⟨invSbox s.b0, invSbox s.b1, invSbox s.b2, invSbox s.b3,
   invSbox s.b4, invSbox s.b5, invSbox s.b6, invSbox s.b7,
   invSbox s.b8, invSbox s.b9, invSbox s.b10, invSbox s.b11,
   invSbox s.b12, invSbox s.b13, invSbox s.b14, invSbox s.b15⟩

/-- ShiftRows (row r of the column-major 4x4 state rotates left by r). -/
def shiftRows (s : Block) : Block :=
  ⟨s.b0, s.b5, s.b10, s.b15,
   s.b4, s.b9, s.b14, s.b3,
   s.b8, s.b13, s.b2, s.b7,
   s.b12, s.b1, s.b6, s.b11⟩

/-- Inverse ShiftRows. -/
def invShiftRows (s : Block) : Block :=
  ⟨s.b0, s.b13, s.b10, s.b7,
   s.b4, s.b1, s.b14, s.b11,
   s.b8, s.b5, s.b2, s.b15,
   s.b12, s.b9, s.b6, s.b3⟩

/-- First output byte of MixColumns on one column; the other three are the
cyclic rotations of this row. -/
def mc0 (a0 a1 a2 a3 : Nat) : Nat := mul2 a0 ^^^ mul3 a1 ^^^ a2 ^^^ a3

/-- First output byte of the inverse MixColumns row (0e 0b 0d 09). -/
def im0 (a0 a1 a2 a3 : Nat) : Nat := mul14 a0 ^^^ mul11 a1 ^^^ mul13 a2 ^^^ mul9 a3

/-- MixColumns. -/
def mixColumns (s : Block) : Block :=
  ⟨mc0 s.b0 s.b1 s.b2 s.b3, mc0 s.b1 s.b2 s.b3 s.b0, mc0 s.b2 s.b3 s.b0 s.b1, mc0 s.b3 s.b0 s.b1 s.b2,
   mc0 s.b4 s.b5 s.b6 s.b7, mc0 s.b5 s.b6 s.b7 s.b4, mc0 s.b6 s.b7 s.b4 s.b5, mc0 s.b7 s.b4 s.b5 s.b6,
   mc0 s.b8 s.b9 s.b10 s.b11, mc0 s.b9 s.b10 s.b11 s.b8, mc0 s.b10 s.b11 s.b8 s.b9, mc0 s.b11 s.b8 s.b9 s.b10,
   mc0 s.b12 s.b13 s.b14 s.b15, mc0 s.b13 s.b14 s.b15 s.b12, mc0 s.b14 s.b15 s.b12 s.b13, mc0 s.b15 s.b12 s.b13 s.b14⟩

/-- Inverse MixColumns. -/
def invMixColumns (s : Block) : Block :=
  ⟨im0 s.b0 s.b1 s.b2 s.b3, im0 s.b1 s.b2 s.b3 s.b0, im0 s.b2 s.b3 s.b0 s.b1, im0 s.b3 s.b0 s.b1 s.b2,
   im0 s.b4 s.b5 s.b6 s.b7, im0 s.b5 s.b6 s.b7 s.b4, im0 s.b6 s.b7 s.b4 s.b5, im0 s.b7 s.b4 s.b5 s.b6,
   im0 s.b8 s.b9 s.b10 s.b11, im0 s.b9 s.b10 s.b11 s.b8, im0 s.b10 s.b11 s.b8 s.b9, im0 s.b11 s.b8 s.b9 s.b10,
   im0 s.b12 s.b13 s.b14 s.b15, im0 s.b13 s.b14 s.b15 s.b12, im0 s.b14 s.b15 s.b12 s.b13, im0 s.b15 s.b12 s.b13 s.b14⟩

/-- AddRoundKey: bytewise xor with a round key. -/
def addRoundKey (s k : Block) : Block :=
  ⟨s.b0 ^^^ k.b0, s.b1 ^^^ k.b1, s.b2 ^^^ k.b2, s.b3 ^^^ k.b3,
   s.b4 ^^^ k.b4, s.b5 ^^^ k.b5, s.b6 ^^^ k.b6, s.b7 ^^^ k.b7,
   s.b8 ^^^ k.b8, s.b9 ^^^ k.b9, s.b10 ^^^ k.b10, s.b11 ^^^ k.b11,
   s.b12 ^^^ k.b12, s.b13 ^^^ k.b13, s.b14 ^^^ k.b14, s.b15 ^^^ k.b15⟩

/-- A key-schedule word: four bytes. -/
abbrev Word := Nat × Nat × Nat × Nat

/-- Bytewise xor of two key-schedule words, reduced as 8-bit registers. -/
def xorWord (a b : Word) : Word :=
  ((a.1 ^^^ b.1) % 256, (a.2.1 ^^^ b.2.1) % 256, (a.2.2.1 ^^^ b.2.2.1) % 256, (a.2.2.2 ^^^ b.2.2.2) % 256)

/-- SubWord of the key schedule. -/
def subWord (w : Word) : Word := (sbox w.1, sbox w.2.1, sbox w.2.2.1, sbox w.2.2.2)

/-- RotWord of the key schedule. -/
def rotWord (w : Word) : Word := (w.2.1, w.2.2.1, w.2.2.2, w.1)

/-- The AES-128 round constants. -/
def rconTable : List Nat := [0x01, 0x02, 0x04, 0x08, 0x10, 0x20, 0x40, 0x80, 0x1B, 0x36]

/-- Append `n` more words to a partial key schedule. -/
def expandAux : Nat → List Word → List Word
  | 0, ws => ws
  | n + 1, ws =>
    let i := ws.length
    let wPrev := ws.getD (i - 1) (0, 0, 0, 0)
    let w4 := ws.getD (i - 4) (0, 0, 0, 0)
    let t : Word :=
      if i % 4 = 0 then xorWord (subWord (rotWord wPrev)) (rconTable.getD (i / 4 - 1) 0, 0, 0, 0)
      else wPrev
    expandAux n (ws ++ [xorWord w4 t])

/-- The first four key-schedule words: the key itself (bytes of a Python
`bytes` object, hence reduced as 8-bit registers). -/
def keyWords0 (key : List Nat) : List Word :=
  [(key.getD 0 0 % 256, key.getD 1 0 % 256, key.getD 2 0 % 256, key.getD 3 0 % 256),
   (key.getD 4 0 % 256, key.getD 5 0 % 256, key.getD 6 0 % 256, key.getD 7 0 % 256),
   (key.getD 8 0 % 256, key.getD 9 0 % 256, key.getD 10 0 % 256, key.getD 11 0 % 256),
   (key.getD 12 0 % 256, key.getD 13 0 % 256, key.getD 14 0 % 256, key.getD 15 0 % 256)]

/-- The full AES-128 key schedule: 44 words. -/
def expandKey (key : List Nat) : List Word :=
  expandAux 40 (keyWords0 key)

/-- Round key `r` as a state (words 4r..4r+3, column-major). -/
def roundKey (ws : List Word) (r : Nat) : Block :=
  let w0 := ws.getD (4 * r) (0, 0, 0, 0)
  let w1 := ws.getD (4 * r + 1) (0, 0, 0, 0)
  let w2 := ws.getD (4 * r + 2) (0, 0, 0, 0)
  let w3 := ws.getD (4 * r + 3) (0, 0, 0, 0)
  ⟨w0.1, w0.2.1, w0.2.2.1, w0.2.2.2,
   w1.1, w1.2.1, w1.2.2.1, w1.2.2.2,
   w2.1, w2.2.1, w2.2.2.1, w2.2.2.2,
   w3.1, w3.2.1, w3.2.2.1, w3.2.2.2⟩

/-- One middle encryption round. -/
def encRound (s rk : Block) : Block :=
  addRoundKey (mixColumns (shiftRows (subBytes s))) rk

/-- One middle decryption round (equal-key-schedule form, inverse of
`encRound`). -/
def decRound (t rk : Block) : Block :=
  invSubBytes (invShiftRows (invMixColumns (addRoundKey t rk)))

/-- The nine middle round keys. -/
def midKeys (w : List Word) : List Block :=
  [roundKey w 1, roundKey w 2, roundKey w 3, roundKey w 4, roundKey w 5,
   roundKey w 6, roundKey w 7, roundKey w 8, roundKey w 9]

/-- The nine middle encryption rounds. -/
def encRounds (s : Block) (rks : List Block) : Block :=
  rks.foldl encRound s

/-- The nine middle decryption rounds, consuming the round keys
backwards. -/
def decRounds (t : Block) (rks : List Block) : Block :=
  rks.foldr (fun rk acc => decRound acc rk) t

/-- AES-128 encryption of a single 16-byte block. -/
def aesEncryptBlock (key : List Nat) (b : Block) : Block :=
  addRoundKey
    (shiftRows (subBytes
      (encRounds (addRoundKey b (roundKey (expandKey key) 0)) (midKeys (expandKey key)))))
    (roundKey (expandKey key) 10)

/-- AES-128 decryption of a single 16-byte block. -/
def aesDecryptBlock (key : List Nat) (c : Block) : Block :=
  addRoundKey
    (decRounds (invSubBytes (invShiftRows (addRoundKey c (roundKey (expandKey key) 10))))
      (midKeys (expandKey key)))
    (roundKey (expandKey key) 0)

/-! ## MD5 (the digest behind `hashlib.md5(...).hexdigest()`) -/

/-- The 64 MD5 sine-derived constants (RFC 1321). -/
def md5K : List Nat :=
  [0xd76aa478, 0xe8c7b756, 0x242070db, 0xc1bdceee, 0xf57c0faf, 0x4787c62a, 0xa8304613, 0xfd469501,
   0x698098d8, 0x8b44f7af, 0xffff5bb1, 0x895cd7be, 0x6b901122, 0xfd987193, 0xa679438e, 0x49b40821,
   0xf61e2562, 0xc040b340, 0x265e5a51, 0xe9b6c7aa, 0xd62f105d, 0x02441453, 0xd8a1e681, 0xe7d3fbc8,
   0x21e1cde6, 0xc33707d6, 0xf4d50d87, 0x455a14ed, 0xa9e3e905, 0xfcefa3f8, 0x676f02d9, 0x8d2a4c8a,
   0xfffa3942, 0x8771f681, 0x6d9d6122, 0xfde5380c, 0xa4beea44, 0x4bdecfa9, 0xf6bb4b60, 0xbebfbc70,
   0x289b7ec6, 0xeaa127fa, 0xd4ef3085, 0x04881d05, 0xd9d4d039, 0xe6db99e5, 0x1fa27cf8, 0xc4ac5665,
   0xf4292244, 0x432aff97, 0xab9423a7, 0xfc93a039, 0x655b59c3, 0x8f0ccc92, 0xffeff47d, 0x85845dd1,
   0x6fa87e4f, 0xfe2ce6e0, 0xa3014314, 0x4e0811a1, 0xf7537e82, 0xbd3af235, 0x2ad7d2bb, 0xeb86d391]

/-- The 64 MD5 per-round left-rotation amounts. -/
def md5S : List Nat :=
  [7, 12, 17, 22, 7, 12, 17, 22, 7, 12, 17, 22, 7, 12, 17, 22,
   5, 9, 14, 20, 5, 9, 14, 20, 5, 9, 14, 20, 5, 9, 14, 20,
   4, 11, 16, 23, 4, 11, 16, 23, 4, 11, 16, 23, 4, 11, 16, 23,
   6, 10, 15, 21, 6, 10, 15, 21, 6, 10, 15, 21, 6, 10, 15, 21]

/-- 32-bit left rotation. -/
def rotl32 (x n : Nat) : Nat :=
  ((x <<< n) ||| (x >>> (32 - n))) % 4294967296

/-- Little-endian byte expansion of `x` into `n` bytes. -/
def toLE (n x : Nat) : List Nat :=
  (List.range n).map fun i => x / 256 ^ i % 256

/-- MD5 padding: a 0x80 byte, zeros to 56 mod 64, then the bit length as
eight little-endian bytes. -/
def md5Pad (msg : List Nat) : List Nat :=
  let len := msg.length
  msg ++ 0x80 :: List.replicate ((119 - len % 64) % 64) 0 ++
    toLE 8 (len * 8 % 18446744073709551616)

/-- Word `j` of a 64-byte chunk, little-endian. -/
def leWord (chunk : List Nat) (j : Nat) : Nat :=
  chunk.getD (4 * j) 0 + 256 * chunk.getD (4 * j + 1) 0 +
    65536 * chunk.getD (4 * j + 2) 0 + 16777216 * chunk.getD (4 * j + 3) 0

/-- The MD5 nonlinear function for step `i`. -/
def md5F (i b c d : Nat) : Nat :=
  if i < 16 then (b &&& c) ||| ((4294967295 ^^^ b) &&& d)
  else if i < 32 then (d &&& b) ||| ((4294967295 ^^^ d) &&& c)
  else if i < 48 then b ^^^ c ^^^ d
  else c ^^^ (b ||| (4294967295 ^^^ d))

/-- The MD5 message-word index for step `i`. -/
def md5G (i : Nat) : Nat :=
  if i < 16 then i
  else if i < 32 then (5 * i + 1) % 16
  else if i < 48 then (3 * i + 5) % 16
  else 7 * i % 16

/-- One of the 64 MD5 steps. -/
def md5Step (chunk : List Nat) (st : Nat × Nat × Nat × Nat) (i : Nat) : Nat × Nat × Nat × Nat :=
  let a := st.1; let b := st.2.1; let c := st.2.2.1; let d := st.2.2.2
  let f := (md5F i b c d + a + md5K.getD i 0 + leWord chunk (md5G i)) % 4294967296
  (d, (b + rotl32 f (md5S.getD i 0)) % 4294967296, b, c)

/-- Process one 64-byte chunk. -/
def md5Chunk (st : Nat × Nat × Nat × Nat) (chunk : List Nat) : Nat × Nat × Nat × Nat :=
  let r := (List.range 64).foldl (md5Step chunk) st
  ((st.1 + r.1) % 4294967296, (st.2.1 + r.2.1) % 4294967296,
   (st.2.2.1 + r.2.2.1) % 4294967296, (st.2.2.2 + r.2.2.2) % 4294967296)

/-- Process a padded message, 64 bytes at a time (the first argument is
fuel, always called with at least as many units as there are chunks). -/
def md5Blocks : Nat → Nat × Nat × Nat × Nat → List Nat → Nat × Nat × Nat × Nat
  | 0, st, _ => st
  | fuel + 1, st, bs =>
    if bs = [] then st else md5Blocks fuel (md5Chunk st (bs.take 64)) (bs.drop 64)

/-- Model of `hashlib.md5(data).hexdigest()`. -/
def md5Hex (msg : List Nat) : String :=
  let padded := md5Pad msg
  let r := md5Blocks padded.length (0x67452301, 0xefcdab89, 0x98badcfe, 0x10325476) padded
  bytesToHex (toLE 4 r.1 ++ toLE 4 r.2.1 ++ toLE 4 r.2.2.1 ++ toLE 4 r.2.2.2)

/-! ## String helpers used by the script -/

/-- Replace every occurrence of the character `c` by the string `r`, the
effect of Python's `str.replace` with a one-character pattern. -/
def pyReplace1 (c : Char) (r : List Char) : List Char → List Char
  | [] => []
  | a :: t => (if a = c then r else [a]) ++ pyReplace1 c r t

/-- Model of Python's `str.strip()` (ASCII whitespace fragment). -/
def pyStrip (s : String) : String :=
  ⟨((s.data.dropWhile fun c => isAsciiWs c).reverse.dropWhile fun c => isAsciiWs c).reverse⟩

/-- ASCII lowercasing of one character. -/
def pyCharLower (c : Char) : Char :=
  if 'A' ≤ c ∧ c ≤ 'Z' then Char.ofNat (c.toNat + 32) else c

/-- Model of Python's `str.lower()` (ASCII fragment). -/
def pyLower (s : String) : String :=
  ⟨s.data.map pyCharLower⟩

/-! ## `encrypt_title_id`, `sanitize_game_name`, `get_capture_id_key` -/

/-- Function `encrypt_title_id` from the script: decode the first 16 hex characters,
reverse the byte order, zero-pad to 16 bytes, AES-128-ECB encrypt, hex
encode and uppercase.  `none` models the `ValueError` that
`bytearray.fromhex` raises on a bad slice. -/
def encrypt_title_id (title_id : String) (key : List Nat) : Option String :=
  (bytesFromHex (takeChars title_id 16)).map fun tb =>
    let title_bytes := tb.reverse
    let padded := title_bytes ++ List.replicate (16 - title_bytes.length) 0
    pyUpper (bytesToHex (blockList (aesEncryptBlock key (mkBlock padded))))

/-- Function `sanitize_game_name` from the script: the nine `str.replace` calls in
source order, then `str.strip()`. -/
def sanitize_game_name (name : String) : String :=
  let n1 := pyReplace1 ':' " -".data name.data
  let n2 := pyReplace1 '/' "-".data n1
  let n3 := pyReplace1 '\\' "-".data n2
  let n4 := pyReplace1 '?' [] n3
  let n5 := pyReplace1 '*' [] n4
  let n6 := pyReplace1 (Char.ofNat 34) [Char.ofNat 39] n5
  let n7 := pyReplace1 '<' [] n6
  let n8 := pyReplace1 '>' [] n7
  let n9 := pyReplace1 '|' "-".data n8
  pyStrip ⟨n9⟩

/-- The pinned MD5 of the only accepted key. -/
def CAPTURE_ID_KEY_HASH : String := "24e0dc62a15c11d38b622162ea2b4383"

/-- Function `get_capture_id_key`: read the environment value, hex-decode it, check
the length and the MD5 digest.  `Except.error` carries the logged message of
the corresponding `sys.exit(1)` path. -/
def get_capture_id_key (env : Option String) : Except String (List Nat) :=
  match env with
  | none => Except.error "CAPTURE_ID_KEY environment variable is not set"
  | some s =>
    if s = "" then Except.error "CAPTURE_ID_KEY environment variable is not set"
    else
      match bytesFromHex s with
      | none => Except.error "Invalid CAPTURE_ID_KEY: non-hexadecimal number found in fromhex() arg"
      | some kb =>
        if kb.length ≠ 16 then
          Except.error "Invalid CAPTURE_ID_KEY: Key must be 16 bytes (32 hex characters)"
        else if md5Hex kb ≠ CAPTURE_ID_KEY_HASH then
          Except.error "CAPTURE_ID_KEY does not match expected hash"
        else Except.ok kb

/-! ## Python dicts as insertion-ordered association lists -/

/-- An insertion-ordered string dict, as the script's `capture_ids`. -/
abbrev Dict := List (String × String)

/-- Assignment `d[k] = v` on a Python dict: overwrite in place if the key exists,
otherwise append. -/
def dictInsert (d : Dict) (k v : String) : Dict :=
  if (d.lookup k).isSome then d.map fun p => if p.1 = k then (k, v) else p
  else d ++ [(k, v)]

/-- The method `d.update(src)` on Python dicts. -/
def dictUpdate (d src : Dict) : Dict :=
  src.foldl (fun acc p => dictInsert acc p.1 p.2) d

/-! ## The three per-source record loops -/

/-- What a fetch returns: the per-source dict and the upstream timestamp. -/
structure FetchResult where
  captureIds : Dict
  sourceUpdatedAt : Option String

/-- One parsed `<tr>` of the switchbrew wikitable: the text of its cells. -/
structure SwRow where
  cells : List String

/-- Membership in the script's `"0123456789ABCDEFabcdef"`. -/
def isHexDigitPy (c : Char) : Bool :=
  c ∈ "0123456789ABCDEFabcdef".data

/-- The skip test `len(title_id) < 16 or not all(c in ... for c in
title_id[:16])` shared by the switchbrew and titledb loops. -/
def titleIdInvalid (t : String) : Bool :=
  decide (t.length < 16) || !(takeChars t 16).data.all isHexDigitPy

/-- The body of the switchbrew row loop. -/
def swStep (key : List Nat) (d : Dict) (row : SwRow) : Dict :=
  if row.cells.length < 3 then d
  else
    let title_id := row.cells.getD 0 ""
    let game_name := row.cells.getD 1 ""
    let region := row.cells.getD 2 ""
    if title_id = "" ∨ game_name = "" ∨ title_id = "None" ∨ game_name = "None" then d
    else if titleIdInvalid title_id then d
    else
      match encrypt_title_id title_id key with
      | none => d
      | some capture_id =>
        let sanitized_name := sanitize_game_name game_name
        if region ≠ "" ∧ region ≠ "None" then
          dictInsert d capture_id (sanitized_name ++ " (" ++ region ++ ")")
        else dictInsert d capture_id sanitized_name

/-- Function `fetch_switchbrew` on already parsed rows. -/
def fetch_switchbrew (rows : List SwRow) (upd : Option String) (key : List Nat) : FetchResult :=
  ⟨rows.foldl (swStep key) [], upd⟩

/-- One `<release>` of the nswdb XML: optional `titleid`, `name`, `region`
texts (`none` for a missing element or empty text, matching the falsiness
tests). -/
structure NswRec where
  titleid : Option String
  name : Option String
  region : Option String

/-- The body of the nswdb release loop.  Note: there is no 16-hex-character
check here; the loop relies on `encrypt_title_id` raising `ValueError`
(caught and skipped) for undecodable title ids. -/
def nswStep (key : List Nat) (d : Dict) (r : NswRec) : Dict :=
  match r.titleid, r.name with
  | some title_id, some name =>
    if title_id = "" ∨ name = "" then d
    else
      let region0 := r.region.getD ""
      let region := if region0 = "WLD" then "EUR USA" else region0
      match encrypt_title_id title_id key with
      | none => d
      | some capture_id =>
        let sanitized_name := sanitize_game_name name
        if region ≠ "" then dictInsert d capture_id (sanitized_name ++ " (" ++ region ++ ")")
        else dictInsert d capture_id sanitized_name
  | _, _ => d

/-- Function `fetch_nswdb` on already parsed releases. -/
def fetch_nswdb (recs : List NswRec) (upd : Option String) (key : List Nat) : FetchResult :=
  ⟨recs.foldl (nswStep key) [], upd⟩

/-- One titledb entry: optional `id` and `name`, and the `isDemo` flag. -/
structure TdbEntry where
  id : Option String
  name : Option String
  isDemo : Bool

/-- The body of the titledb entry loop. -/
def tdbStep (key : List Nat) (d : Dict) (e : TdbEntry) : Dict :=
  match e.id, e.name with
  | some title_id, some name =>
    if title_id = "" ∨ name = "" then d
    else if e.isDemo then d
    else if titleIdInvalid title_id then d
    else
      match encrypt_title_id title_id key with
      | none => d
      | some capture_id => dictInsert d capture_id (sanitize_game_name name ++ " (USA)")
  | _, _ => d

/-- Function `fetch_titledb` on already parsed entries. -/
def fetch_titledb (entries : List TdbEntry) (upd : Option String) (key : List Nat) : FetchResult :=
  ⟨entries.foldl (tdbStep key) [], upd⟩

/-! ## Saving: sort, metadata carry-forward -/

/-- Per-source in-run info recorded by `main`. -/
structure SourceInfo where
  count : Nat
  sourceUpdatedAt : Option String
deriving DecidableEq

/-- A per-source metadata record of `captureIds.meta.json`. -/
structure SourceMetadata where
  count : Nat
  fetchedAt : String
  sourceUpdatedAt : Option String
deriving DecidableEq

/-- The run metadata of `captureIds.meta.json`. -/
structure Metadata where
  totalCount : Nat
  generatedAt : String
  sources : List (String × SourceMetadata)
deriving DecidableEq

/-- The comparison `key=lambda x: x[1].lower()` induces on dict items. -/
def labelLe (x y : String × String) : Bool :=
  decide (pyLower x.2 ≤ pyLower y.2)

/-- The sort `dict(sorted(capture_ids.items(), key=lambda x: x[1].lower()))`:
Python's `sorted` is a stable sort by the lowercased label. -/
def sortCaptureIds (d : Dict) : Dict :=
  d.mergeSort labelLe

/-- The fixed source-name order of the metadata loop. -/
def sourceNames : List String := ["switchbrew", "nswdb", "titledb"]

/-- The metadata `sources` loop of `save_capture_ids`: refreshed sources get
a new record stamped `now`; other sources keep their previous record. -/
def buildSources (now : String) (info : List (String × SourceInfo))
    (existingSources : List (String × SourceMetadata)) : List (String × SourceMetadata) :=
  sourceNames.foldl
    (fun acc name =>
      match info.lookup name with
      | some i => acc ++ [(name, ⟨i.count, now, i.sourceUpdatedAt⟩)]
      | none =>
        match existingSources.lookup name with
        | some sm => acc ++ [(name, sm)]
        | none => acc)
    []

/-- What `save_capture_ids` writes (nothing on a dry run). -/
structure SaveResult where
  savedMapping : Option Dict
  savedMeta : Option Metadata
deriving DecidableEq

/-- Function `save_capture_ids` as a function of the merged dict, the run info, the
dry-run flag, the current timestamp and the previously persisted metadata. -/
def save_capture_ids (capture_ids : Dict) (source_info : List (String × SourceInfo))
    (dry_run : Bool) (now : String) (existing_metadata : Option Metadata) : SaveResult :=
  let sorted_ids := sortCaptureIds capture_ids
  if dry_run then ⟨none, none⟩
  else
    let sources := buildSources now source_info
      (match existing_metadata with
       | some m => m.sources
       | none => [])
    ⟨some sorted_ids, some ⟨sorted_ids.length, now, sources⟩⟩

/-! ## `main` -/

/-- The `--source` command-line choice. -/
inductive SourceSel
  | switchbrew
  | nswdb
  | titledb
  | all
deriving DecidableEq

/-- Whether `args.source in (target, "all")` holds. -/
def selIncludes (sel target : SourceSel) : Bool :=
  sel == target || sel == SourceSel.all

/-- The observable outcome of a run: the exit code, the error messages
logged at error level, which sources were fetched, and what was written. -/
structure MainResult where
  exitCode : Nat
  errorLog : List String
  fetched : List String
  savedMapping : Option Dict
  savedMeta : Option Metadata
deriving DecidableEq

/-- One conditional fetch-and-merge step of `main`'s body, accumulating the
merged dict, the `source_info` entries and the list of fetched sources. -/
def sourceStep (doFetch : Bool) (name : String) (res : FetchResult)
    (acc : Dict × List (String × SourceInfo) × List String) :
    Dict × List (String × SourceInfo) × List String :=
  if doFetch then
    (dictUpdate acc.1 res.captureIds,
     acc.2.1 ++ [(name, ⟨res.captureIds.length, res.sourceUpdatedAt⟩)],
     acc.2.2 ++ [name])
  else acc

/-- The body of `main` once `get_capture_id_key` has returned a validated
key: fetch and merge the selected sources in the fixed order, fail if the
merged dict is empty, otherwise save. -/
def mainWithKey (key : List Nat) (sel : SourceSel) (dryRun keepExisting : Bool)
    (existing : Dict) (existingMeta : Option Metadata) (now : String)
    (swRows : List SwRow) (swUpd : Option String)
    (nswRecs : List NswRec) (nswUpd : Option String)
    (tdbEntries : List TdbEntry) (tdbUpd : Option String) : MainResult :=
  let acc0 : Dict × List (String × SourceInfo) × List String :=
    (if keepExisting then existing else [], [], [])
  let acc1 := sourceStep (selIncludes sel SourceSel.switchbrew) "switchbrew"
    (fetch_switchbrew swRows swUpd key) acc0
  let acc2 := sourceStep (selIncludes sel SourceSel.nswdb) "nswdb"
    (fetch_nswdb nswRecs nswUpd key) acc1
  let acc3 := sourceStep (selIncludes sel SourceSel.titledb) "titledb"
    (fetch_titledb tdbEntries tdbUpd key) acc2
  if acc3.1 = [] then ⟨1, ["No capture IDs found from any source"], acc3.2.2, none, none⟩
  else
    let sr := save_capture_ids acc3.1 acc3.2.1 dryRun now existingMeta
    ⟨0, [], acc3.2.2, sr.savedMapping, sr.savedMeta⟩

/-- Function `main` as a pure function: the environment key value, the parsed
arguments, the previously persisted artifacts, the current timestamp, and
the already fetched-and-parsed records of each source. -/
def mainRun (env : Option String) (sel : SourceSel) (dryRun keepExisting : Bool)
    (existing : Dict) (existingMeta : Option Metadata) (now : String)
    (swRows : List SwRow) (swUpd : Option String)
    (nswRecs : List NswRec) (nswUpd : Option String)
    (tdbEntries : List TdbEntry) (tdbUpd : Option String) : MainResult :=
  match get_capture_id_key env with
  | Except.error msg => ⟨1, [msg], [], none, none⟩
  | Except.ok key =>
    mainWithKey key sel dryRun keepExisting existing existingMeta now swRows swUpd nswRecs
      nswUpd tdbEntries tdbUpd

/-! # Proof layer -/

/-! ## Hex decoding and encoding -/

theorem hexVal_lt {c : Char} {v : Nat} (h : hexVal c = some v) : v < 16 := by
  unfold hexVal at h
  split_ifs at h <;> simp_all <;> omega

theorem hexVal_not_ws {c : Char} (h : isAsciiWs c = true) : hexVal c = none := by
  simp only [isAsciiWs, decide_eq_true_eq] at h
  rcases h with rfl | rfl | rfl | rfl | rfl | rfl <;> decide

theorem isHexDigitPy_isSome {c : Char} (h : isHexDigitPy c = true) : (hexVal c).isSome = true := by
  simp only [isHexDigitPy, List.mem_cons, decide_eq_true_eq] at h
  rcases h with rfl | rfl | rfl | rfl | rfl | rfl | rfl | rfl | rfl | rfl | rfl | rfl | rfl | rfl |
    rfl | rfl | rfl | rfl | rfl | rfl | rfl | h <;> first
  | decide
  | (simp at h; subst h; decide)

theorem bytesFromHexAux_hex (n : Nat) :
    ∀ l : List Char, l.length ≤ n → (∀ c ∈ l, (hexVal c).isSome = true) → l.length % 2 = 0 →
      ∃ bs, bytesFromHexAux l = some bs ∧ bs.length = l.length / 2 ∧ ∀ b ∈ bs, b < 256 := by
  induction n with
  | zero =>
    intro l hl _ _
    have hnil : l = [] := by cases l <;> simp_all
    subst hnil
    exact ⟨[], by simp [bytesFromHexAux], by simp, by simp⟩
  | succ n ih =>
    intro l hl hall hlen
    match l with
    | [] => exact ⟨[], by simp [bytesFromHexAux], by simp, by simp⟩
    | [c] => simp at hlen
    | c1 :: c2 :: rest =>
      have h1 : (hexVal c1).isSome = true := hall c1 (by simp)
      have h2 : (hexVal c2).isSome = true := hall c2 (by simp)
      obtain ⟨v1, hv1⟩ := Option.isSome_iff_exists.mp h1
      obtain ⟨v2, hv2⟩ := Option.isSome_iff_exists.mp h2
      have hws1 : isAsciiWs c1 = false := by
        cases hb : isAsciiWs c1 with
        | false => rfl
        | true => rw [hexVal_not_ws hb] at hv1; cases hv1
      obtain ⟨bs, hbs, hlenbs, hltbs⟩ := ih rest (by simp at hl; omega)
        (fun c hc => hall c (by simp [hc])) (by simp at hlen ⊢; omega)
      refine ⟨(v1 * 16 + v2) :: bs, ?_, ?_, ?_⟩
      · simp [bytesFromHexAux, hws1, hv1, hv2, hbs]
      · simp [hlenbs]; omega
      · intro b hb
        rcases List.mem_cons.mp hb with rfl | hb
        · have := hexVal_lt hv1; have := hexVal_lt hv2; omega
        · exact hltbs b hb

theorem bytesFromHex_hex16 {t : String} (hlen : 16 ≤ t.length)
    (hhex : ∀ c ∈ t.data.take 16, isHexDigitPy c = true) :
    ∃ bs, bytesFromHex (takeChars t 16) = some bs ∧ bs.length = 8 ∧ ∀ b ∈ bs, b < 256 := by
  have hlen16 : (t.data.take 16).length = 16 := by
    simp only [List.length_take]
    exact Nat.min_eq_left hlen
  obtain ⟨bs, hbs, hl, hlt⟩ := bytesFromHexAux_hex 16 (t.data.take 16) (by omega)
    (fun c hc => isHexDigitPy_isSome (hhex c hc)) (by rw [hlen16])
  refine ⟨bs, hbs, ?_, hlt⟩
  rw [hl, hlen16]

/-- All characters are uppercase hexadecimal digits. -/
def isUpperHexDigit (c : Char) : Bool :=
  c ∈ "0123456789ABCDEF".data

theorem hexCharUpper_ok {i : Nat} (h : i < 16) :
    isUpperHexDigit (pyCharUpper (hexDigitsLower.getD i '0')) = true :=
  (by decide : ∀ j : Fin 16, isUpperHexDigit (pyCharUpper (hexDigitsLower.getD j.val '0')) = true)
    ⟨i, h⟩

theorem flatMap_byteToHex_length (bs : List Nat) : (bs.flatMap byteToHex).length = 2 * bs.length := by
  induction bs with
  | nil => simp
  | cons b t ih => simp [byteToHex, ih] at *; omega

theorem flatMap_byteToHex_upper (bs : List Nat) :
    ((bs.flatMap byteToHex).map pyCharUpper).all isUpperHexDigit = true := by
  induction bs with
  | nil => rfl
  | cons b t ih =>
    simp only [List.flatMap_cons, List.map_append, List.all_append, ih, Bool.and_true, byteToHex,
      List.map_cons, List.map_nil, List.all_cons, List.all_nil]
    rw [hexCharUpper_ok (Nat.mod_lt _ (by omega)), hexCharUpper_ok (Nat.mod_lt _ (by omega))]
    rfl

theorem length_blockList (s : Block) : (blockList s).length = 16 := rfl

/-- C1: for every title id whose first 16 characters are valid hexadecimal
digits and every 16-byte key, `encrypt_title_id` succeeds and returns a
string of exactly 32 characters, all of them uppercase hexadecimal
digits. -/
theorem c1_transform_shape (t : String) (key : List Nat)
    (hlen : 16 ≤ t.length) (hhex : ∀ c ∈ t.data.take 16, isHexDigitPy c = true)
    (hkey : key.length = 16) :
    ∃ s, encrypt_title_id t key = some s ∧ s.length = 32 ∧ s.data.all isUpperHexDigit = true := by
  obtain ⟨bs, hbs, hlen8, hlt⟩ := bytesFromHex_hex16 hlen hhex
  refine ⟨_, by rw [encrypt_title_id, hbs]; rfl, ?_, ?_⟩
  · show (pyUpper (bytesToHex (blockList _))).length = 32
    simp only [pyUpper, bytesToHex, String.length, List.length_map, flatMap_byteToHex_length,
      length_blockList]
  · show (pyUpper (bytesToHex (blockList _))).data.all isUpperHexDigit = true
    simp only [pyUpper, bytesToHex]
    exact flatMap_byteToHex_upper _

/-- Witness for C1: the concrete title id `"0100000000010000"` with the
all-zero 16-byte key. -/
theorem c1_transform_shape_witness :
    16 ≤ ("0100000000010000" : String).length ∧
    (∀ c ∈ ("0100000000010000" : String).data.take 16, isHexDigitPy c = true) ∧
    (List.replicate 16 0).length = 16 ∧
    ∃ s, encrypt_title_id "0100000000010000" (List.replicate 16 0) = some s ∧
      s.length = 32 ∧ s.data.all isUpperHexDigit = true :=
  ⟨by decide, by decide, by decide,
   c1_transform_shape "0100000000010000" (List.replicate 16 0) (by decide) (by decide) (by decide)⟩

/-! ## AES is injective for every key: decryption inverts encryption -/

theorem xor_lt_256 {a b : Nat} (ha : a < 256) (hb : b < 256) : a ^^^ b < 256 :=
  @Nat.xor_lt_two_pow a b 8 ha hb

theorem xor_left_comm (a b c : Nat) : a ^^^ (b ^^^ c) = b ^^^ (a ^^^ c) := by
  rw [← Nat.xor_assoc, Nat.xor_comm a b, Nat.xor_assoc]

theorem xtime_lt (b : Nat) : xtime b < 256 := by
  unfold xtime
  split <;> exact Nat.mod_lt _ (by omega)

theorem shiftLeft_one_xor (a b : Nat) : (a ^^^ b) <<< 1 = (a <<< 1) ^^^ (b <<< 1) := by
  apply Nat.eq_of_testBit_eq
  intro i
  simp [Nat.testBit_shiftLeft, Nat.testBit_xor, Bool.and_xor_distrib_left]

theorem mod256_eq_and (x : Nat) : x % 256 = x &&& 255 := by
  have h := Nat.and_pow_two_sub_one_eq_mod x 8
  norm_num at h
  omega

theorem xor_mod256 (a b : Nat) : (a ^^^ b) % 256 = a % 256 ^^^ b % 256 := by
  rw [mod256_eq_and, mod256_eq_and, mod256_eq_and, Nat.and_xor_distrib_right]

theorem and128_eq (a : Nat) : a &&& 128 = (a.testBit 7).toNat * 128 := by
  have h := Nat.and_two_pow a 7
  norm_num at h
  exact h

theorem xtime_xor {a b : Nat} (ha : a < 256) (hb : b < 256) :
    xtime (a ^^^ b) = xtime a ^^^ xtime b := by
  unfold xtime
  rw [show ((a ^^^ b) &&& 128) = (a &&& 128) ^^^ (b &&& 128) from Nat.and_xor_distrib_right]
  rw [and128_eq a, and128_eq b]
  cases hta : a.testBit 7 <;> cases htb : b.testBit 7 <;>
    simp [shiftLeft_one_xor, xor_mod256, Nat.xor_assoc, Nat.xor_comm, xor_left_comm,
      Nat.xor_cancel_left]

theorem mul2_lt (b : Nat) : mul2 b < 256 := xtime_lt b

theorem mul3_lt {b : Nat} (h : b < 256) : mul3 b < 256 := xor_lt_256 (xtime_lt b) h

theorem mul2_xor {a b : Nat} (ha : a < 256) (hb : b < 256) :
    mul2 (a ^^^ b) = mul2 a ^^^ mul2 b := xtime_xor ha hb

theorem mul3_xor {a b : Nat} (ha : a < 256) (hb : b < 256) :
    mul3 (a ^^^ b) = mul3 a ^^^ mul3 b := by
  unfold mul3
  rw [xtime_xor ha hb]
  simp [Nat.xor_assoc, Nat.xor_comm, xor_left_comm]

theorem mul9_xor {a b : Nat} (ha : a < 256) (hb : b < 256) :
    mul9 (a ^^^ b) = mul9 a ^^^ mul9 b := by
  unfold mul9
  rw [xtime_xor ha hb, xtime_xor (xtime_lt a) (xtime_lt b),
    xtime_xor (xtime_lt (xtime a)) (xtime_lt (xtime b))]
  simp [Nat.xor_assoc, Nat.xor_comm, xor_left_comm]

theorem mul11_xor {a b : Nat} (ha : a < 256) (hb : b < 256) :
    mul11 (a ^^^ b) = mul11 a ^^^ mul11 b := by
  unfold mul11
  rw [xtime_xor ha hb, xtime_xor (xtime_lt a) (xtime_lt b),
    xtime_xor (xtime_lt (xtime a)) (xtime_lt (xtime b))]
  simp [Nat.xor_assoc, Nat.xor_comm, xor_left_comm]

theorem mul13_xor {a b : Nat} (ha : a < 256) (hb : b < 256) :
    mul13 (a ^^^ b) = mul13 a ^^^ mul13 b := by
  unfold mul13
  rw [xtime_xor ha hb, xtime_xor (xtime_lt a) (xtime_lt b),
    xtime_xor (xtime_lt (xtime a)) (xtime_lt (xtime b))]
  simp [Nat.xor_assoc, Nat.xor_comm, xor_left_comm]

theorem mul14_xor {a b : Nat} (ha : a < 256) (hb : b < 256) :
    mul14 (a ^^^ b) = mul14 a ^^^ mul14 b := by
  unfold mul14
  rw [xtime_xor ha hb, xtime_xor (xtime_lt a) (xtime_lt b),
    xtime_xor (xtime_lt (xtime a)) (xtime_lt (xtime b))]
  simp [Nat.xor_assoc, Nat.xor_comm, xor_left_comm]

/-- Expansion of an additive byte function over the four xor-ed summands of
a MixColumns row. -/
theorem mulexp (f : Nat → Nat)
    (hf : ∀ {x y : Nat}, x < 256 → y < 256 → f (x ^^^ y) = f x ^^^ f y)
    {w x y z : Nat} (hw : w < 256) (hx : x < 256) (hy : y < 256) (hz : z < 256) :
    f (w ^^^ x ^^^ y ^^^ z) = f w ^^^ f x ^^^ f y ^^^ f z := by
  rw [hf (xor_lt_256 (xor_lt_256 hw hx) hy) hz, hf (xor_lt_256 hw hx) hy, hf hw hx]

theorem dcoef1 {b : Nat} (h : b < 256) :
    mul14 (mul2 b) ^^^ mul11 b ^^^ mul13 b ^^^ mul9 (mul3 b) = b :=
  (by decide :
    ∀ i : Fin 256, mul14 (mul2 i.val) ^^^ mul11 i.val ^^^ mul13 i.val ^^^ mul9 (mul3 i.val) = i.val)
    ⟨b, h⟩

theorem dcoef2 {b : Nat} (h : b < 256) :
    mul14 (mul3 b) ^^^ mul11 (mul2 b) ^^^ mul13 b ^^^ mul9 b = 0 :=
  (by decide :
    ∀ i : Fin 256, mul14 (mul3 i.val) ^^^ mul11 (mul2 i.val) ^^^ mul13 i.val ^^^ mul9 i.val = 0)
    ⟨b, h⟩

theorem dcoef3 {b : Nat} (h : b < 256) :
    mul14 b ^^^ mul11 (mul3 b) ^^^ mul13 (mul2 b) ^^^ mul9 b = 0 :=
  (by decide :
    ∀ i : Fin 256, mul14 i.val ^^^ mul11 (mul3 i.val) ^^^ mul13 (mul2 i.val) ^^^ mul9 i.val = 0)
    ⟨b, h⟩

theorem dcoef4 {b : Nat} (h : b < 256) :
    mul14 b ^^^ mul11 b ^^^ mul13 (mul3 b) ^^^ mul9 (mul2 b) = 0 :=
  (by decide :
    ∀ i : Fin 256, mul14 i.val ^^^ mul11 i.val ^^^ mul13 (mul3 i.val) ^^^ mul9 (mul2 i.val) = 0)
    ⟨b, h⟩

/-- The inverse MixColumns row applied to the four rotations of the
MixColumns row recovers the first input byte. -/
theorem im0_mc0 {a0 a1 a2 a3 : Nat} (h0 : a0 < 256) (h1 : a1 < 256) (h2 : a2 < 256)
    (h3 : a3 < 256) :
    im0 (mc0 a0 a1 a2 a3) (mc0 a1 a2 a3 a0) (mc0 a2 a3 a0 a1) (mc0 a3 a0 a1 a2) = a0 := by
  have r20 := mul2_lt a0
  have r21 := mul2_lt a1
  have r22 := mul2_lt a2
  have r23 := mul2_lt a3
  have r30 := mul3_lt h0
  have r31 := mul3_lt h1
  have r32 := mul3_lt h2
  have r33 := mul3_lt h3
  unfold im0 mc0
  rw [mulexp mul14 mul14_xor r20 r31 h2 h3, mulexp mul11 mul11_xor r21 r32 h3 h0,
    mulexp mul13 mul13_xor r22 r33 h0 h1, mulexp mul9 mul9_xor r23 r30 h1 h2]
  calc mul14 (mul2 a0) ^^^ mul14 (mul3 a1) ^^^ mul14 a2 ^^^ mul14 a3 ^^^
        (mul11 (mul2 a1) ^^^ mul11 (mul3 a2) ^^^ mul11 a3 ^^^ mul11 a0) ^^^
        (mul13 (mul2 a2) ^^^ mul13 (mul3 a3) ^^^ mul13 a0 ^^^ mul13 a1) ^^^
        (mul9 (mul2 a3) ^^^ mul9 (mul3 a0) ^^^ mul9 a1 ^^^ mul9 a2)
      = (mul14 (mul2 a0) ^^^ mul11 a0 ^^^ mul13 a0 ^^^ mul9 (mul3 a0)) ^^^
        ((mul14 (mul3 a1) ^^^ mul11 (mul2 a1) ^^^ mul13 a1 ^^^ mul9 a1) ^^^
         ((mul14 a2 ^^^ mul11 (mul3 a2) ^^^ mul13 (mul2 a2) ^^^ mul9 a2) ^^^
          (mul14 a3 ^^^ mul11 a3 ^^^ mul13 (mul3 a3) ^^^ mul9 (mul2 a3)))) := by
        simp only [Nat.xor_assoc]
        simp [Nat.xor_comm, xor_left_comm]
    _ = a0 := by
        rw [dcoef1 h0, dcoef2 h1, dcoef3 h2, dcoef4 h3]
        simp

/-- All sixteen bytes of a state are below 256. -/
def BlockLt (s : Block) : Prop :=
  s.b0 < 256 ∧ s.b1 < 256 ∧ s.b2 < 256 ∧ s.b3 < 256 ∧
  s.b4 < 256 ∧ s.b5 < 256 ∧ s.b6 < 256 ∧ s.b7 < 256 ∧
  s.b8 < 256 ∧ s.b9 < 256 ∧ s.b10 < 256 ∧ s.b11 < 256 ∧
  s.b12 < 256 ∧ s.b13 < 256 ∧ s.b14 < 256 ∧ s.b15 < 256

instance (s : Block) : Decidable (BlockLt s) := by
  unfold BlockLt
  infer_instance

theorem getD_pred {α : Type} {P : α → Prop} :
    ∀ (l : List α) (d : α), (∀ x ∈ l, P x) → P d → ∀ i, P (l.getD i d)
  | [], _, _, hd, _ => by simpa using hd
  | x :: _, _, h, _, 0 => by simpa using h x (by simp)
  | _ :: t, d, h, hd, i + 1 => by
    simpa using getD_pred t d (fun y hy => h y (by simp [hy])) hd i

theorem sbox_lt (b : Nat) : sbox b < 256 :=
  (by decide : ∀ i : Fin 256, sboxTable.getD i.val 0 < 256) ⟨b % 256, Nat.mod_lt _ (by omega)⟩

theorem invSbox_sbox {b : Nat} (h : b < 256) : invSbox (sbox b) = b :=
  (by decide : ∀ i : Fin 256, invSbox (sbox i.val) = i.val) ⟨b, h⟩

theorem subBytes_lt (s : Block) : BlockLt (subBytes s) :=
  ⟨sbox_lt _, sbox_lt _, sbox_lt _, sbox_lt _, sbox_lt _, sbox_lt _, sbox_lt _, sbox_lt _,
   sbox_lt _, sbox_lt _, sbox_lt _, sbox_lt _, sbox_lt _, sbox_lt _, sbox_lt _, sbox_lt _⟩

theorem shiftRows_lt {s : Block} (h : BlockLt s) : BlockLt (shiftRows s) := by
  obtain ⟨h0, h1, h2, h3, h4, h5, h6, h7, h8, h9, h10, h11, h12, h13, h14, h15⟩ := h
  exact ⟨h0, h5, h10, h15, h4, h9, h14, h3, h8, h13, h2, h7, h12, h1, h6, h11⟩

theorem mc0_lt {a0 a1 a2 a3 : Nat} (h1 : a1 < 256) (h2 : a2 < 256) (h3 : a3 < 256) :
    mc0 a0 a1 a2 a3 < 256 :=
  xor_lt_256 (xor_lt_256 (xor_lt_256 (mul2_lt a0) (mul3_lt h1)) h2) h3

theorem mixColumns_lt {s : Block} (h : BlockLt s) : BlockLt (mixColumns s) := by
  obtain ⟨h0, h1, h2, h3, h4, h5, h6, h7, h8, h9, h10, h11, h12, h13, h14, h15⟩ := h
  exact ⟨mc0_lt h1 h2 h3, mc0_lt h2 h3 h0, mc0_lt h3 h0 h1, mc0_lt h0 h1 h2,
    mc0_lt h5 h6 h7, mc0_lt h6 h7 h4, mc0_lt h7 h4 h5, mc0_lt h4 h5 h6,
    mc0_lt h9 h10 h11, mc0_lt h10 h11 h8, mc0_lt h11 h8 h9, mc0_lt h8 h9 h10,
    mc0_lt h13 h14 h15, mc0_lt h14 h15 h12, mc0_lt h15 h12 h13, mc0_lt h12 h13 h14⟩

theorem addRoundKey_lt {s k : Block} (hs : BlockLt s) (hk : BlockLt k) :
    BlockLt (addRoundKey s k) := by
  obtain ⟨h0, h1, h2, h3, h4, h5, h6, h7, h8, h9, h10, h11, h12, h13, h14, h15⟩ := hs
  obtain ⟨g0, g1, g2, g3, g4, g5, g6, g7, g8, g9, g10, g11, g12, g13, g14, g15⟩ := hk
  exact ⟨xor_lt_256 h0 g0, xor_lt_256 h1 g1, xor_lt_256 h2 g2, xor_lt_256 h3 g3,
    xor_lt_256 h4 g4, xor_lt_256 h5 g5, xor_lt_256 h6 g6, xor_lt_256 h7 g7,
    xor_lt_256 h8 g8, xor_lt_256 h9 g9, xor_lt_256 h10 g10, xor_lt_256 h11 g11,
    xor_lt_256 h12 g12, xor_lt_256 h13 g13, xor_lt_256 h14 g14, xor_lt_256 h15 g15⟩

/-- All four bytes of a key-schedule word are below 256. -/
def WordLt (w : Word) : Prop :=
  w.1 < 256 ∧ w.2.1 < 256 ∧ w.2.2.1 < 256 ∧ w.2.2.2 < 256

theorem xorWord_lt (a b : Word) : WordLt (xorWord a b) :=
  ⟨Nat.mod_lt _ (by omega), Nat.mod_lt _ (by omega), Nat.mod_lt _ (by omega),
   Nat.mod_lt _ (by omega)⟩

theorem keyWords0_lt (key : List Nat) : ∀ w ∈ keyWords0 key, WordLt w := by
  intro w hw
  rcases (by simpa [keyWords0] using hw : _ ∨ _ ∨ _ ∨ _) with rfl | rfl | rfl | rfl <;>
    exact ⟨Nat.mod_lt _ (by omega), Nat.mod_lt _ (by omega), Nat.mod_lt _ (by omega),
      Nat.mod_lt _ (by omega)⟩

theorem expandAux_lt : ∀ (n : Nat) (ws : List Word), (∀ w ∈ ws, WordLt w) →
    ∀ w ∈ expandAux n ws, WordLt w
  | 0, ws, h => by simpa [expandAux] using h
  | n + 1, ws, h => by
    rw [expandAux]
    refine expandAux_lt n _ ?_
    intro w hw
    rcases List.mem_append.mp hw with hw | hw
    · exact h w hw
    · rcases List.mem_singleton.mp hw with rfl
      exact xorWord_lt _ _

theorem expandKey_lt (key : List Nat) : ∀ w ∈ expandKey key, WordLt w :=
  expandAux_lt 40 _ (keyWords0_lt key)

theorem roundKey_lt (key : List Nat) (r : Nat) : BlockLt (roundKey (expandKey key) r) := by
  have hd : WordLt ((0, 0, 0, 0) : Word) := ⟨by decide, by decide, by decide, by decide⟩
  have h0 := getD_pred _ _ (expandKey_lt key) hd (4 * r)
  have h1 := getD_pred _ _ (expandKey_lt key) hd (4 * r + 1)
  have h2 := getD_pred _ _ (expandKey_lt key) hd (4 * r + 2)
  have h3 := getD_pred _ _ (expandKey_lt key) hd (4 * r + 3)
  simp only [BlockLt, roundKey]
  exact ⟨h0.1, h0.2.1, h0.2.2.1, h0.2.2.2, h1.1, h1.2.1, h1.2.2.1, h1.2.2.2,
    h2.1, h2.2.1, h2.2.2.1, h2.2.2.2, h3.1, h3.2.1, h3.2.2.1, h3.2.2.2⟩

theorem encRound_lt {s rk : Block} (hrk : BlockLt rk) : BlockLt (encRound s rk) :=
  addRoundKey_lt (mixColumns_lt (shiftRows_lt (subBytes_lt s))) hrk

theorem invSubBytes_subBytes {s : Block} (h : BlockLt s) : invSubBytes (subBytes s) = s := by
  obtain ⟨h0, h1, h2, h3, h4, h5, h6, h7, h8, h9, h10, h11, h12, h13, h14, h15⟩ := h
  cases s
  simp only [subBytes, invSubBytes, Block.mk.injEq]
  exact ⟨invSbox_sbox h0, invSbox_sbox h1, invSbox_sbox h2, invSbox_sbox h3,
    invSbox_sbox h4, invSbox_sbox h5, invSbox_sbox h6, invSbox_sbox h7,
    invSbox_sbox h8, invSbox_sbox h9, invSbox_sbox h10, invSbox_sbox h11,
    invSbox_sbox h12, invSbox_sbox h13, invSbox_sbox h14, invSbox_sbox h15⟩

theorem invShiftRows_shiftRows (s : Block) : invShiftRows (shiftRows s) = s := rfl

theorem invMixColumns_mixColumns {s : Block} (h : BlockLt s) :
    invMixColumns (mixColumns s) = s := by
  obtain ⟨h0, h1, h2, h3, h4, h5, h6, h7, h8, h9, h10, h11, h12, h13, h14, h15⟩ := h
  cases s
  simp only [mixColumns, invMixColumns, Block.mk.injEq]
  exact ⟨im0_mc0 h0 h1 h2 h3, im0_mc0 h1 h2 h3 h0, im0_mc0 h2 h3 h0 h1, im0_mc0 h3 h0 h1 h2,
    im0_mc0 h4 h5 h6 h7, im0_mc0 h5 h6 h7 h4, im0_mc0 h6 h7 h4 h5, im0_mc0 h7 h4 h5 h6,
    im0_mc0 h8 h9 h10 h11, im0_mc0 h9 h10 h11 h8, im0_mc0 h10 h11 h8 h9, im0_mc0 h11 h8 h9 h10,
    im0_mc0 h12 h13 h14 h15, im0_mc0 h13 h14 h15 h12, im0_mc0 h14 h15 h12 h13,
    im0_mc0 h15 h12 h13 h14⟩

theorem addRoundKey_cancel (s k : Block) : addRoundKey (addRoundKey s k) k = s := by
  cases s
  cases k
  simp [addRoundKey, Nat.xor_cancel_right]

theorem decRound_encRound {s : Block} (rk : Block) (h : BlockLt s) :
    decRound (encRound s rk) rk = s := by
  unfold decRound encRound
  rw [addRoundKey_cancel, invMixColumns_mixColumns (shiftRows_lt (subBytes_lt s)),
    invShiftRows_shiftRows, invSubBytes_subBytes h]

theorem encRounds_lt {s : Block} {rks : List Block} (hs : BlockLt s)
    (hrks : ∀ rk ∈ rks, BlockLt rk) : BlockLt (encRounds s rks) := by
  induction rks generalizing s with
  | nil => exact hs
  | cons rk rest ih =>
    exact ih (encRound_lt (hrks rk (by simp))) fun k hk => hrks k (by simp [hk])

theorem decRounds_encRounds {s : Block} {rks : List Block} (hs : BlockLt s)
    (hrks : ∀ rk ∈ rks, BlockLt rk) : decRounds (encRounds s rks) rks = s := by
  induction rks generalizing s with
  | nil => rfl
  | cons rk rest ih =>
    show decRound (decRounds (encRounds (encRound s rk) rest) rest) rk = s
    rw [ih (encRound_lt (hrks rk (by simp))) fun k hk => hrks k (by simp [hk])]
    exact decRound_encRound rk hs

theorem midKeys_lt (key : List Nat) : ∀ rk ∈ midKeys (expandKey key), BlockLt rk := by
  intro rk hrk
  rcases (by simpa [midKeys] using hrk :
      rk = _ ∨ rk = _ ∨ rk = _ ∨ rk = _ ∨ rk = _ ∨ rk = _ ∨ rk = _ ∨ rk = _ ∨ rk = _) with
    rfl | rfl | rfl | rfl | rfl | rfl | rfl | rfl | rfl <;> exact roundKey_lt key _

/-- For every key, AES decryption undoes AES encryption on any state of
genuine bytes; in particular encryption is injective for every key. -/
theorem aesDecrypt_aesEncrypt (key : List Nat) {b : Block} (h : BlockLt b) :
    aesDecryptBlock key (aesEncryptBlock key b) = b := by
  unfold aesDecryptBlock aesEncryptBlock
  rw [addRoundKey_cancel, invShiftRows_shiftRows,
    invSubBytes_subBytes (encRounds_lt (addRoundKey_lt h (roundKey_lt key 0)) (midKeys_lt key)),
    decRounds_encRounds (addRoundKey_lt h (roundKey_lt key 0)) (midKeys_lt key),
    addRoundKey_cancel]

theorem aesEncryptBlock_lt (key : List Nat) (b : Block) : BlockLt (aesEncryptBlock key b) :=
  addRoundKey_lt (shiftRows_lt (subBytes_lt _)) (roundKey_lt key 10)

/-! ## Injectivity of the hex rendering, and claim C5 -/

theorem hexDigit_mem {i : Nat} (h : i < 16) : hexDigitsLower.getD i '0' ∈ hexDigitsLower :=
  (by decide : ∀ j : Fin 16, hexDigitsLower.getD j.val '0' ∈ hexDigitsLower) ⟨i, h⟩

theorem upper_digit_inj : ∀ c1 ∈ hexDigitsLower, ∀ c2 ∈ hexDigitsLower,
    pyCharUpper c1 = pyCharUpper c2 → c1 = c2 := by decide

theorem digit_inj {i j : Nat} (hi : i < 16) (hj : j < 16)
    (h : hexDigitsLower.getD i '0' = hexDigitsLower.getD j '0') : i = j :=
  congrArg Fin.val
    ((by decide : ∀ a b : Fin 16,
        hexDigitsLower.getD a.val '0' = hexDigitsLower.getD b.val '0' → a = b) ⟨i, hi⟩ ⟨j, hj⟩ h)

theorem mapUpper_hex_inj {l1 : List Nat} : ∀ {l2 : List Nat},
    (∀ b ∈ l1, b < 256) → (∀ b ∈ l2, b < 256) →
    (l1.flatMap byteToHex).map pyCharUpper = (l2.flatMap byteToHex).map pyCharUpper → l1 = l2 := by
  induction l1 with
  | nil =>
    intro l2 _ _ h
    cases l2 with
    | nil => rfl
    | cons b t => simp [byteToHex] at h
  | cons a t1 ih =>
    intro l2 h1 h2 h
    cases l2 with
    | nil => simp [byteToHex] at h
    | cons b t2 =>
      simp only [List.flatMap_cons, List.map_append, byteToHex, List.map_cons, List.map_nil,
        List.cons_append, List.nil_append, List.cons.injEq] at h
      obtain ⟨e1, e2, e3⟩ := h
      have ha := h1 a (by simp)
      have hb := h2 b (by simp)
      have d1 : a / 16 % 16 = b / 16 % 16 :=
        digit_inj (Nat.mod_lt _ (by omega)) (Nat.mod_lt _ (by omega))
          (upper_digit_inj _ (hexDigit_mem (Nat.mod_lt _ (by omega))) _
            (hexDigit_mem (Nat.mod_lt _ (by omega))) e1)
      have d2 : a % 16 = b % 16 :=
        digit_inj (Nat.mod_lt _ (by omega)) (Nat.mod_lt _ (by omega))
          (upper_digit_inj _ (hexDigit_mem (Nat.mod_lt _ (by omega))) _
            (hexDigit_mem (Nat.mod_lt _ (by omega))) e2)
      have hab : a = b := by omega
      subst hab
      rw [ih (fun x hx => h1 x (by simp [hx])) (fun x hx => h2 x (by simp [hx])) e3]

theorem blockList_lt {s : Block} (h : BlockLt s) : ∀ b ∈ blockList s, b < 256 := by
  obtain ⟨h0, h1, h2, h3, h4, h5, h6, h7, h8, h9, h10, h11, h12, h13, h14, h15⟩ := h
  intro b hb
  simp only [blockList, List.mem_cons, List.not_mem_nil, or_false] at hb
  rcases hb with rfl | rfl | rfl | rfl | rfl | rfl | rfl | rfl | rfl | rfl | rfl | rfl | rfl |
    rfl | rfl | rfl <;> assumption

theorem blockList_inj {s t : Block} (h : blockList s = blockList t) : s = t := by
  cases s
  cases t
  simp only [blockList, List.cons.injEq, and_true] at h
  obtain ⟨e0, e1, e2, e3, e4, e5, e6, e7, e8, e9, e10, e11, e12, e13, e14, e15⟩ := h
  subst e0 e1 e2 e3 e4 e5 e6 e7 e8 e9 e10 e11 e12 e13 e14 e15
  rfl

/-- C5: for every 16-byte key (in fact for every key at all), transforming
the title id `"0100000000010000"` and the title id `"0000010000000001"`
yield different Capture IDs: the byte-order reversal inside
`encrypt_title_id` is observable in the output. -/
theorem c5_byte_reversal_observable (key : List Nat) :
    encrypt_title_id "0100000000010000" key ≠ encrypt_title_id "0000010000000001" key := by
  intro hEq
  have e1 : bytesFromHex (takeChars "0100000000010000" 16) = some [1, 0, 0, 0, 0, 1, 0, 0] := by
    decide
  have e2 : bytesFromHex (takeChars "0000010000000001" 16) = some [0, 0, 1, 0, 0, 0, 0, 1] := by
    decide
  rw [encrypt_title_id, encrypt_title_id, e1, e2] at hEq
  simp only [Option.map_some', Option.some.injEq] at hEq
  have hdata := congrArg String.data hEq
  simp only [pyUpper, bytesToHex] at hdata
  have hbl := mapUpper_hex_inj (blockList_lt (aesEncryptBlock_lt key _))
    (blockList_lt (aesEncryptBlock_lt key _)) hdata
  have hblocks := blockList_inj hbl
  have hdec := congrArg (aesDecryptBlock key) hblocks
  rw [aesDecrypt_aesEncrypt key (by decide), aesDecrypt_aesEncrypt key (by decide)] at hdec
  exact absurd hdec (by decide)

/-! ## Claim C4: an untrusted key aborts the run before any work -/

/-- Sanity check: the MD5 model reproduces the digest of the empty
message. -/
theorem md5Hex_nil : md5Hex [] = "d41d8cd98f00b204e9800998ecf8427e" := by decide

/-- C4: any 32-hex-character key whose decoded 16 bytes hash (MD5) to
something other than the pinned digest makes `get_capture_id_key` fail with
the hash-mismatch error, and makes the whole run abort with exit code 1
before any source is fetched and with nothing written. -/
theorem c4_untrusted_key_fatal (s : String) (kb : List Nat)
    (hdec : bytesFromHex s = some kb) (hlen : kb.length = 16)
    (hmd5 : md5Hex kb ≠ CAPTURE_ID_KEY_HASH) :
    get_capture_id_key (some s) = Except.error "CAPTURE_ID_KEY does not match expected hash" ∧
    ∀ (sel : SourceSel) (dryRun keepExisting : Bool) (existing : Dict)
      (existingMeta : Option Metadata) (now : String) (swRows : List SwRow)
      (swUpd : Option String) (nswRecs : List NswRec) (nswUpd : Option String)
      (tdbEntries : List TdbEntry) (tdbUpd : Option String),
      mainRun (some s) sel dryRun keepExisting existing existingMeta now swRows swUpd nswRecs
          nswUpd tdbEntries tdbUpd =
        ⟨1, ["CAPTURE_ID_KEY does not match expected hash"], [], none, none⟩ := by
  have hs : ¬s = "" := by
    intro h
    subst h
    have hkb : kb = [] := by simpa [bytesFromHex, bytesFromHexAux] using hdec.symm
    rw [hkb] at hlen
    simp at hlen
  have hkey : get_capture_id_key (some s) =
      Except.error "CAPTURE_ID_KEY does not match expected hash" := by
    simp [get_capture_id_key, hdec, hs, hlen, hmd5]
  refine ⟨hkey, ?_⟩
  intro sel dryRun keepExisting existing existingMeta now swRows swUpd nswRecs nswUpd
    tdbEntries tdbUpd
  simp only [mainRun, hkey]

/-- Witness for C4: the all-zero 32-hex key decodes to 16 bytes whose MD5
differs from the pinned digest, so the run aborts. -/
theorem c4_untrusted_key_fatal_witness :
    bytesFromHex "00000000000000000000000000000000" = some (List.replicate 16 0) ∧
    (List.replicate 16 0).length = 16 ∧
    md5Hex (List.replicate 16 0) ≠ CAPTURE_ID_KEY_HASH ∧
    (get_capture_id_key (some "00000000000000000000000000000000") =
        Except.error "CAPTURE_ID_KEY does not match expected hash" ∧
      ∀ (sel : SourceSel) (dryRun keepExisting : Bool) (existing : Dict)
        (existingMeta : Option Metadata) (now : String) (swRows : List SwRow)
        (swUpd : Option String) (nswRecs : List NswRec) (nswUpd : Option String)
        (tdbEntries : List TdbEntry) (tdbUpd : Option String),
        mainRun (some "00000000000000000000000000000000") sel dryRun keepExisting existing
            existingMeta now swRows swUpd nswRecs nswUpd tdbEntries tdbUpd =
          ⟨1, ["CAPTURE_ID_KEY does not match expected hash"], [], none, none⟩) :=
  ⟨by decide, by decide, by decide,
   c4_untrusted_key_fatal "00000000000000000000000000000000" (List.replicate 16 0)
     (by decide) (by decide) (by decide)⟩

/-! ## Python-dict lemmas -/

/-- Keys are pairwise distinct (the invariant of every Python dict). -/
def NodupKeys (d : Dict) : Prop :=
  d.Pairwise fun a b => a.1 ≠ b.1

theorem lookup_insert_self (d : Dict) (k v : String) : (dictInsert d k v).lookup k = some v := by
  unfold dictInsert
  split_ifs with hs
  · induction d with
    | nil => simp at hs
    | cons p t ih =>
      obtain ⟨pk, pv⟩ := p
      by_cases hp : pk = k
      · subst hp
        simp [List.lookup_cons]
      · have hb : (k == pk) = false := by simp [Ne.symm hp]
        simp only [List.map_cons, if_neg hp, List.lookup_cons, hb]
        exact ih (by simpa [List.lookup_cons, hb] using hs)
  · rw [List.lookup_append]
    rw [Option.not_isSome_iff_eq_none.mp hs]
    simp [List.lookup_cons]

theorem lookup_map_replace_other (d : Dict) (k' v k : String) (hne : k' ≠ k) :
    (d.map fun p => if p.1 = k' then (k', v) else p).lookup k = d.lookup k := by
  have hb : (k == k') = false := by simp [Ne.symm hne]
  induction d with
  | nil => rfl
  | cons p t ih =>
    obtain ⟨pk, pv⟩ := p
    by_cases hp : pk = k'
    · subst hp
      simp only [List.map_cons, List.lookup_cons, hb, eq_self_iff_true, if_true]
      exact ih
    · simp only [List.map_cons, if_neg hp, List.lookup_cons]
      cases hkp : k == pk
      · exact ih
      · rfl

theorem lookup_insert_other (d : Dict) (k' v k : String) (hne : k' ≠ k) :
    (dictInsert d k' v).lookup k = d.lookup k := by
  have hb : (k == k') = false := by simp [Ne.symm hne]
  unfold dictInsert
  split_ifs with hs
  · exact lookup_map_replace_other d k' v k hne
  · rw [List.lookup_append]
    cases hl : d.lookup k
    · simp [List.lookup_cons, hb]
    · rfl

theorem lookup_update_none {src : Dict} {k : String} :
    ∀ (d : Dict), src.lookup k = none → (dictUpdate d src).lookup k = d.lookup k := by
  induction src with
  | nil => intro d _; rfl
  | cons p t ih =>
    intro d h
    obtain ⟨pk, pv⟩ := p
    rw [List.lookup_cons] at h
    cases hkp : k == pk with
    | true => rw [hkp] at h; cases h
    | false =>
      rw [hkp] at h
      show (dictUpdate (dictInsert d pk pv) t).lookup k = d.lookup k
      rw [ih _ h, lookup_insert_other _ _ _ _ fun he => by simp [he] at hkp]

theorem lookup_not_mem_none {d : Dict} {k : String} (h : ∀ p ∈ d, p.1 ≠ k) :
    d.lookup k = none :=
  List.lookup_eq_none_iff.mpr fun p hp => by simpa using (h p hp).symm

theorem lookup_update_some {src : Dict} {k v : String} :
    ∀ (d : Dict), NodupKeys src → src.lookup k = some v →
      (dictUpdate d src).lookup k = some v := by
  induction src with
  | nil => intro d _ h; cases h
  | cons p t ih =>
    intro d hnd h
    obtain ⟨pk, pv⟩ := p
    obtain ⟨hhead, htail⟩ := List.pairwise_cons.mp hnd
    rw [List.lookup_cons] at h
    cases hkp : k == pk with
    | true =>
      rw [hkp] at h
      injection h with hv
      subst hv
      have hk : k = pk := by simpa using hkp
      subst hk
      show (dictUpdate (dictInsert d k pv) t).lookup k = some pv
      have htn : t.lookup k = none :=
        lookup_not_mem_none fun p hp he => hhead p hp he.symm
      rw [lookup_update_none _ htn, lookup_insert_self]
    | false =>
      rw [hkp] at h
      exact ih _ htail h

/-! ## The per-source dicts have pairwise-distinct keys -/

theorem nodupKeys_dictInsert {d : Dict} (h : NodupKeys d) (k v : String) :
    NodupKeys (dictInsert d k v) := by
  unfold dictInsert
  split_ifs with hs
  · refine List.Pairwise.map _ ?_ h
    intro a b hab
    by_cases ha : a.1 = k <;> by_cases hb : b.1 = k
    · exact absurd (ha.trans hb.symm) hab
    · rw [if_pos ha, if_neg hb]
      exact fun he => hb he.symm
    · rw [if_neg ha, if_pos hb]
      exact ha
    · rw [if_neg ha, if_neg hb]
      exact hab
  · have hnotin : ∀ p ∈ d, p.1 ≠ k := by
      intro p hp he
      exact hs (List.lookup_isSome_iff.mpr ⟨p, hp, by simp [he]⟩)
    refine List.pairwise_append.mpr ⟨h, List.pairwise_singleton _ _, ?_⟩
    intro a ha b hb
    have : b = (k, v) := by simpa using hb
    subst this
    exact hnotin a ha

theorem nodupKeys_foldl {β : Type} (step : Dict → β → Dict)
    (hstep : ∀ d x, NodupKeys d → NodupKeys (step d x)) :
    ∀ (l : List β) (d : Dict), NodupKeys d → NodupKeys (l.foldl step d) := by
  intro l
  induction l with
  | nil => intro d h; exact h
  | cons x t ih => intro d h; exact ih _ (hstep d x h)

theorem nodupKeys_swStep (key : List Nat) (d : Dict) (row : SwRow) (h : NodupKeys d) :
    NodupKeys (swStep key d row) := by
  simp only [swStep]
  split_ifs <;>
    first
    | exact h
    | exact nodupKeys_dictInsert h _ _
    | (cases henc : encrypt_title_id (row.cells.getD 0 "") key with
       | none => exact h
       | some cid => exact nodupKeys_dictInsert h _ _)

theorem nodupKeys_nswStep (key : List Nat) (d : Dict) (r : NswRec) (h : NodupKeys d) :
    NodupKeys (nswStep key d r) := by
  obtain ⟨rt, rn, rr⟩ := r
  cases rt with
  | none => exact h
  | some tid =>
    cases rn with
    | none => exact h
    | some nm =>
      simp only [nswStep]
      split_ifs <;>
        first
        | exact h
        | exact nodupKeys_dictInsert h _ _
        | (cases henc : encrypt_title_id tid key with
           | none => exact h
           | some cid => exact nodupKeys_dictInsert h _ _)

theorem nodupKeys_tdbStep (key : List Nat) (d : Dict) (e : TdbEntry) (h : NodupKeys d) :
    NodupKeys (tdbStep key d e) := by
  obtain ⟨ei, en, ed⟩ := e
  cases ei with
  | none => exact h
  | some tid =>
    cases en with
    | none => exact h
    | some nm =>
      simp only [tdbStep]
      split_ifs <;>
        first
        | exact h
        | exact nodupKeys_dictInsert h _ _
        | (cases henc : encrypt_title_id tid key with
           | none => exact h
           | some cid => exact nodupKeys_dictInsert h _ _)

theorem nodupKeys_fetch_switchbrew (rows : List SwRow) (upd : Option String) (key : List Nat) :
    NodupKeys (fetch_switchbrew rows upd key).captureIds :=
  nodupKeys_foldl _ (fun d x => nodupKeys_swStep key d x) rows [] List.Pairwise.nil

theorem nodupKeys_fetch_nswdb (recs : List NswRec) (upd : Option String) (key : List Nat) :
    NodupKeys (fetch_nswdb recs upd key).captureIds :=
  nodupKeys_foldl _ (fun d x => nodupKeys_nswStep key d x) recs [] List.Pairwise.nil

theorem nodupKeys_fetch_titledb (entries : List TdbEntry) (upd : Option String) (key : List Nat) :
    NodupKeys (fetch_titledb entries upd key).captureIds :=
  nodupKeys_foldl _ (fun d x => nodupKeys_tdbStep key d x) entries [] List.Pairwise.nil

/-! ## Claim C2: which malformed title ids are dropped -/

theorem swStep_invalid_drop (key : List Nat) (d : Dict) (row : SwRow)
    (h : titleIdInvalid (row.cells.getD 0 "") = true) : swStep key d row = d := by
  simp only [swStep]
  split_ifs with h1 h2 h3 h4 h5 <;> first | rfl | exact absurd h h3

theorem tdbStep_invalid_drop (key : List Nat) (d : Dict) (e : TdbEntry)
    (h : titleIdInvalid (e.id.getD "") = true) : tdbStep key d e = d := by
  obtain ⟨ei, en, ed⟩ := e
  cases ei with
  | none => rfl
  | some tid =>
    cases en with
    | none => rfl
    | some nm =>
      simp only [Option.getD_some] at h
      simp only [tdbStep]
      split_ifs with h1 h2 h3 h4 h5 <;> first | rfl | exact absurd h h3

theorem nswStep_badhex_drop (key : List Nat) (d : Dict) (r : NswRec)
    (h : bytesFromHex (takeChars (r.titleid.getD "") 16) = none) : nswStep key d r = d := by
  obtain ⟨rt, rn, rr⟩ := r
  cases rt with
  | none => rfl
  | some tid =>
    cases rn with
    | none => rfl
    | some nm =>
      simp only [Option.getD_some] at h
      have henc : encrypt_title_id tid key = none := by
        unfold encrypt_title_id
        rw [h]
        rfl
      simp only [nswStep]
      split_ifs <;> first | rfl | rw [henc]

/-- C2 counterexample: the claim fails on the nswdb source.  The release
`titleid="0100"` has fewer than 16 characters in its title id (so by the
claim it must be dropped), yet `fetch_nswdb` produces an entry from it:
`bytes.fromhex("0100")` succeeds and the short id is zero-padded and
encrypted. -/
theorem c2_counterexample :
    ("0100" : String).length < 16 ∧
    (fetch_nswdb [⟨some "0100", some "Game", none⟩] none (List.replicate 16 0)).captureIds ≠
      [] := by
  refine ⟨by decide, ?_⟩
  decide

/-- C2 (amended): the silent invalid-hex drop holds for the switchbrew and
titledb loops exactly as claimed (any record whose title id is shorter than
16 characters or whose first 16 characters are not all hex digits
contributes nothing, at the record level and at the whole-list level); for
the nswdb loop a record is silently dropped when Python's hex decoding of
the first 16 characters of its title id fails (odd digit count or a non-hex
character), but a shorter-than-16, decodable title id is not dropped. -/
theorem c2_invalid_hex_drop_amended :
    (∀ (key : List Nat) (d : Dict) (row : SwRow),
      titleIdInvalid (row.cells.getD 0 "") = true → swStep key d row = d) ∧
    (∀ (key : List Nat) (d : Dict) (e : TdbEntry),
      titleIdInvalid (e.id.getD "") = true → tdbStep key d e = d) ∧
    (∀ (key : List Nat) (d : Dict) (r : NswRec),
      bytesFromHex (takeChars (r.titleid.getD "") 16) = none → nswStep key d r = d) ∧
    (∀ (key : List Nat) (rows1 rows2 : List SwRow) (bad : SwRow) (upd : Option String),
      titleIdInvalid (bad.cells.getD 0 "") = true →
      fetch_switchbrew (rows1 ++ bad :: rows2) upd key = fetch_switchbrew (rows1 ++ rows2) upd key) ∧
    (∀ (key : List Nat) (l1 l2 : List TdbEntry) (bad : TdbEntry) (upd : Option String),
      titleIdInvalid (bad.id.getD "") = true →
      fetch_titledb (l1 ++ bad :: l2) upd key = fetch_titledb (l1 ++ l2) upd key) := by
  refine ⟨swStep_invalid_drop, tdbStep_invalid_drop, nswStep_badhex_drop, ?_, ?_⟩
  · intro key rows1 rows2 bad upd h
    unfold fetch_switchbrew
    rw [List.foldl_append, List.foldl_append, List.foldl_cons, swStep_invalid_drop key _ bad h]
  · intro key l1 l2 bad upd h
    unfold fetch_titledb
    rw [List.foldl_append, List.foldl_append, List.foldl_cons, tdbStep_invalid_drop key _ bad h]

/-! ## Claim C3: merge precedence is last-write-wins -/

/-- C3: in a full run (source order switchbrew, nswdb, titledb), if the
switchbrew dict and the titledb dict both contain the capture id `x` with
different labels, the merged dict built by `main`'s three `update` calls
maps `x` to the titledb label. -/
theorem c3_last_write_wins (key : List Nat) (keepExisting : Bool) (existing : Dict)
    (swRows : List SwRow) (swUpd : Option String) (nswRecs : List NswRec)
    (nswUpd : Option String) (tdbEntries : List TdbEntry) (tdbUpd : Option String)
    (x la lc : String)
    (hsw : (fetch_switchbrew swRows swUpd key).captureIds.lookup x = some la)
    (htdb : (fetch_titledb tdbEntries tdbUpd key).captureIds.lookup x = some lc)
    (hne : la ≠ lc) :
    (dictUpdate
      (dictUpdate
        (dictUpdate (if keepExisting then existing else [])
          (fetch_switchbrew swRows swUpd key).captureIds)
        (fetch_nswdb nswRecs nswUpd key).captureIds)
      (fetch_titledb tdbEntries tdbUpd key).captureIds).lookup x = some lc :=
  lookup_update_some _ (nodupKeys_fetch_titledb tdbEntries tdbUpd key) htdb

/-- Witness for C3: a switchbrew row and a titledb entry with the same
title id but different names; the merged dict carries the titledb label. -/
theorem c3_last_write_wins_witness :
    ((fetch_switchbrew [⟨["0100000000010000", "Alpha", "USA"]⟩] none
        (List.replicate 16 0)).captureIds.lookup
      ((encrypt_title_id "0100000000010000" (List.replicate 16 0)).getD "") =
        some "Alpha (USA)") ∧
    ((fetch_titledb [⟨some "0100000000010000", some "Beta", false⟩] none
        (List.replicate 16 0)).captureIds.lookup
      ((encrypt_title_id "0100000000010000" (List.replicate 16 0)).getD "") =
        some "Beta (USA)") ∧
    ("Alpha (USA)" : String) ≠ "Beta (USA)" ∧
    (dictUpdate
      (dictUpdate
        (dictUpdate (if false then ([] : Dict) else [])
          (fetch_switchbrew [⟨["0100000000010000", "Alpha", "USA"]⟩] none
            (List.replicate 16 0)).captureIds)
        (fetch_nswdb [] none (List.replicate 16 0)).captureIds)
      (fetch_titledb [⟨some "0100000000010000", some "Beta", false⟩] none
        (List.replicate 16 0)).captureIds).lookup
      ((encrypt_title_id "0100000000010000" (List.replicate 16 0)).getD "") =
      some "Beta (USA)" :=
  ⟨by decide, by decide, by decide,
   c3_last_write_wins (List.replicate 16 0) false [] [⟨["0100000000010000", "Alpha", "USA"]⟩]
     none [] none [⟨some "0100000000010000", some "Beta", false⟩] none
     ((encrypt_title_id "0100000000010000" (List.replicate 16 0)).getD "")
     "Alpha (USA)" "Beta (USA)" (by decide) (by decide) (by decide)⟩

/-! ## Claim C6: sanitization is the claimed per-character rule -/

theorem pyReplace1_append (c : Char) (r : List Char) (x y : List Char) :
    pyReplace1 c r (x ++ y) = pyReplace1 c r x ++ pyReplace1 c r y := by
  induction x with
  | nil => rfl
  | cons a t ih => simp [pyReplace1, ih]

/-- The per-character substitution rule stated by the spec. -/
def specCharRule (c : Char) : List Char :=
  if c = ':' then " -".data
  else if c = '/' then "-".data
  else if c = '\\' then "-".data
  else if c = '?' then []
  else if c = '*' then []
  else if c = Char.ofNat 34 then [Char.ofNat 39]
  else if c = '<' then []
  else if c = '>' then []
  else if c = '|' then "-".data
  else [c]

/-- Sanitization as the spec words it: one pass of the per-character rule,
then trim surrounding whitespace. -/
def specSanitize (s : String) : String :=
  pyStrip ⟨s.data.flatMap specCharRule⟩

/-- The nine sequential replaces of `sanitize_game_name`, as one list
function. -/
def chainReplace (l : List Char) : List Char :=
  pyReplace1 '|' "-".data
    (pyReplace1 '>' []
      (pyReplace1 '<' []
        (pyReplace1 (Char.ofNat 34) [Char.ofNat 39]
          (pyReplace1 '*' []
            (pyReplace1 '?' []
              (pyReplace1 '\\' "-".data
                (pyReplace1 '/' "-".data
                  (pyReplace1 ':' " -".data l))))))))

theorem chainReplace_singleton (a : Char) : chainReplace [a] = specCharRule a := by
  by_cases h1 : a = ':'
  · subst h1; rfl
  by_cases h2 : a = '/'
  · subst h2; rfl
  by_cases h3 : a = '\\'
  · subst h3; rfl
  by_cases h4 : a = '?'
  · subst h4; rfl
  by_cases h5 : a = '*'
  · subst h5; rfl
  by_cases h6 : a = Char.ofNat 34
  · subst h6; rfl
  by_cases h7 : a = '<'
  · subst h7; rfl
  by_cases h8 : a = '>'
  · subst h8; rfl
  by_cases h9 : a = '|'
  · subst h9; rfl
  simp [chainReplace, pyReplace1, specCharRule, h1, h2, h3, h4, h5, h6, h7, h8, h9]

theorem chainReplace_flatMap (l : List Char) : chainReplace l = l.flatMap specCharRule := by
  induction l with
  | nil => rfl
  | cons a t ih =>
    have hsplit : chainReplace (a :: t) = chainReplace [a] ++ chainReplace t := by
      show chainReplace ([a] ++ t) = _
      simp only [chainReplace, pyReplace1_append]
    rw [hsplit, chainReplace_singleton, ih, List.flatMap_cons]

/-- C6: for every input name, `sanitize_game_name` replaces each colon by
`" -"`, each of `/`, `\`, `|` by `"-"`, removes `?`, `*`, `<`, `>`,
replaces each double quote by a single quote, and trims surrounding
whitespace; in particular it maps `"Metroid: Zero Mission"` to
`"Metroid - Zero Mission"`. -/
theorem c6_sanitize_characterization :
    (∀ s : String, sanitize_game_name s = specSanitize s) ∧
    sanitize_game_name "Metroid: Zero Mission" = "Metroid - Zero Mission" := by
  refine ⟨fun s => ?_, by decide⟩
  show pyStrip ⟨chainReplace s.data⟩ = pyStrip ⟨s.data.flatMap specCharRule⟩
  rw [chainReplace_flatMap]

/-! ## Claim C7: metadata of unrefreshed sources is carried forward -/

/-- The (at most one) `sources` entry the metadata loop emits for one
source name. -/
def sourceEntry (now : String) (info : List (String × SourceInfo))
    (exS : List (String × SourceMetadata)) (name : String) : List (String × SourceMetadata) :=
  match info.lookup name with
  | some i => [(name, ⟨i.count, now, i.sourceUpdatedAt⟩)]
  | none =>
    match exS.lookup name with
    | some sm => [(name, sm)]
    | none => []

theorem buildSources_eq (now : String) (info : List (String × SourceInfo))
    (exS : List (String × SourceMetadata)) :
    buildSources now info exS =
      sourceEntry now info exS "switchbrew" ++ sourceEntry now info exS "nswdb" ++
        sourceEntry now info exS "titledb" := by
  unfold buildSources sourceNames sourceEntry
  simp only [List.foldl_cons, List.foldl_nil]
  cases info.lookup "switchbrew" <;> cases exS.lookup "switchbrew" <;>
    cases info.lookup "nswdb" <;> cases exS.lookup "nswdb" <;>
    cases info.lookup "titledb" <;> cases exS.lookup "titledb" <;> simp

theorem sourceEntry_lookup_ne (now : String) (info : List (String × SourceInfo))
    (exS : List (String × SourceMetadata)) (n k : String) (hne : n ≠ k) :
    (sourceEntry now info exS n).lookup k = none := by
  have hb : (k == n) = false := by simp [Ne.symm hne]
  unfold sourceEntry
  cases info.lookup n
  · cases exS.lookup n
    · rfl
    · simp [List.lookup_cons, hb]
  · simp [List.lookup_cons, hb]

theorem sourceEntry_lookup_carry (now : String) (info : List (String × SourceInfo))
    (exS : List (String × SourceMetadata)) (name : String) (sm : SourceMetadata)
    (hnone : info.lookup name = none) (hsm : exS.lookup name = some sm) :
    (sourceEntry now info exS name).lookup name = some sm := by
  unfold sourceEntry
  rw [hnone, hsm]
  simp [List.lookup_cons]

/-- C7: if the prior run metadata has an entry for one of the three source
names and that source is not refreshed in this invocation, the metadata
written by `save_capture_ids` contains the previous entry unchanged (count,
fetch timestamp and upstream timestamp included). -/
theorem c7_metadata_carry_forward (now : String) (info : List (String × SourceInfo))
    (m : Metadata) (name : String) (sm : SourceMetadata)
    (hname : name ∈ sourceNames) (hnotrun : info.lookup name = none)
    (hprior : m.sources.lookup name = some sm) :
    (buildSources now info m.sources).lookup name = some sm := by
  rw [buildSources_eq, List.lookup_append, List.lookup_append]
  fin_cases hname
  · rw [sourceEntry_lookup_carry now info m.sources "switchbrew" sm hnotrun hprior]
    rfl
  · rw [sourceEntry_lookup_ne now info m.sources "switchbrew" "nswdb" (by decide),
      sourceEntry_lookup_carry now info m.sources "nswdb" sm hnotrun hprior]
    rfl
  · rw [sourceEntry_lookup_ne now info m.sources "switchbrew" "titledb" (by decide),
      sourceEntry_lookup_ne now info m.sources "nswdb" "titledb" (by decide),
      sourceEntry_lookup_carry now info m.sources "titledb" sm hnotrun hprior]
    rfl

/-- Witness for C7: a run refreshing only switchbrew keeps the prior nswdb
entry unchanged. -/
theorem c7_metadata_carry_forward_witness :
    ("nswdb" : String) ∈ sourceNames ∧
    ([(("switchbrew" : String), (⟨3, some "U"⟩ : SourceInfo))].lookup "nswdb" = none) ∧
    ((Metadata.mk 7 "G" [("nswdb", ⟨2, "F", some "V"⟩)]).sources.lookup "nswdb" =
      some (⟨2, "F", some "V"⟩ : SourceMetadata)) ∧
    (buildSources "T" [("switchbrew", ⟨3, some "U"⟩)]
        (Metadata.mk 7 "G" [("nswdb", ⟨2, "F", some "V"⟩)]).sources).lookup "nswdb" =
      some (⟨2, "F", some "V"⟩ : SourceMetadata) :=
  ⟨by decide, by decide, by decide,
   c7_metadata_carry_forward "T" [("switchbrew", ⟨3, some "U"⟩)]
     (Metadata.mk 7 "G" [("nswdb", ⟨2, "F", some "V"⟩)]) "nswdb" ⟨2, "F", some "V"⟩
     (by decide) (by decide) (by decide)⟩

/-! ## Claims C8 and C10: the empty-result check -/

/-- The error messages of the three fatal `get_capture_id_key` paths. -/
def keyErrorMessages : List String :=
  ["CAPTURE_ID_KEY environment variable is not set",
   "Invalid CAPTURE_ID_KEY: non-hexadecimal number found in fromhex() arg",
   "Invalid CAPTURE_ID_KEY: Key must be 16 bytes (32 hex characters)",
   "CAPTURE_ID_KEY does not match expected hash"]

theorem get_capture_id_key_error_mem (env : Option String) (msg : String)
    (h : get_capture_id_key env = Except.error msg) : msg ∈ keyErrorMessages := by
  cases env with
  | none =>
    have h0 : (Except.error "CAPTURE_ID_KEY environment variable is not set" :
        Except String (List Nat)) = Except.error msg := h
    injection h0 with h0
    subst h0
    decide
  | some s =>
    have h1 : (if s = "" then
        (Except.error "CAPTURE_ID_KEY environment variable is not set" : Except String (List Nat))
      else
        match bytesFromHex s with
        | none =>
          Except.error "Invalid CAPTURE_ID_KEY: non-hexadecimal number found in fromhex() arg"
        | some kb =>
          if kb.length ≠ 16 then
            Except.error "Invalid CAPTURE_ID_KEY: Key must be 16 bytes (32 hex characters)"
          else if md5Hex kb ≠ CAPTURE_ID_KEY_HASH then
            Except.error "CAPTURE_ID_KEY does not match expected hash"
          else Except.ok kb) = Except.error msg := h
    split_ifs at h1 with hs
    · injection h1 with h1
      subst h1
      decide
    · cases hbs : bytesFromHex s with
      | none =>
        rw [hbs] at h1
        injection h1 with h1
        subst h1
        decide
      | some kb =>
        rw [hbs] at h1
        have h2 : (if kb.length ≠ 16 then
            (Except.error "Invalid CAPTURE_ID_KEY: Key must be 16 bytes (32 hex characters)" :
              Except String (List Nat))
          else if md5Hex kb ≠ CAPTURE_ID_KEY_HASH then
            Except.error "CAPTURE_ID_KEY does not match expected hash"
          else Except.ok kb) = Except.error msg := h1
        split_ifs at h2 with ha hb
        · injection h2 with h2
          subst h2
          decide
        · injection h2 with h2
          subst h2
          decide

/-- C8 counterexample: a `--keep-existing` run seeded with a nonempty
previously-persisted mapping, in which every source yields zero valid
records, does not signal the empty-result failure: it exits with code 0 and
logs no error. -/
theorem c8_counterexample :
    ((fetch_switchbrew [] none (List.replicate 16 0)).captureIds = []) ∧
    ((fetch_nswdb [] none (List.replicate 16 0)).captureIds = []) ∧
    ((fetch_titledb [] none (List.replicate 16 0)).captureIds = []) ∧
    (mainWithKey (List.replicate 16 0) SourceSel.all true true [("X", "A (USA)")] none "T"
        [] none [] none [] none).exitCode = 0 ∧
    (mainWithKey (List.replicate 16 0) SourceSel.all true true [("X", "A (USA)")] none "T"
        [] none [] none [] none).errorLog = [] := by
  decide

/-- C8 (amended): in a run that is not seeded with a nonempty
previously-persisted mapping, if every source yields zero valid records the
run exits with code 1, logs the human-readable message "No capture IDs
found from any source", writes nothing — and this message differs from
every fatal key-validation message, so automation can tell the two apart. -/
theorem c8_empty_run_reported_amended (key : List Nat) (sel : SourceSel)
    (dryRun keepExisting : Bool) (existing : Dict) (existingMeta : Option Metadata)
    (now : String) (swRows : List SwRow) (swUpd : Option String) (nswRecs : List NswRec)
    (nswUpd : Option String) (tdbEntries : List TdbEntry) (tdbUpd : Option String)
    (hseed : keepExisting = false ∨ existing = [])
    (hsw : (fetch_switchbrew swRows swUpd key).captureIds = [])
    (hnsw : (fetch_nswdb nswRecs nswUpd key).captureIds = [])
    (htdb : (fetch_titledb tdbEntries tdbUpd key).captureIds = []) :
    (mainWithKey key sel dryRun keepExisting existing existingMeta now swRows swUpd nswRecs
        nswUpd tdbEntries tdbUpd).exitCode = 1 ∧
    (mainWithKey key sel dryRun keepExisting existing existingMeta now swRows swUpd nswRecs
        nswUpd tdbEntries tdbUpd).errorLog = ["No capture IDs found from any source"] ∧
    (mainWithKey key sel dryRun keepExisting existing existingMeta now swRows swUpd nswRecs
        nswUpd tdbEntries tdbUpd).savedMapping = none ∧
    (mainWithKey key sel dryRun keepExisting existing existingMeta now swRows swUpd nswRecs
        nswUpd tdbEntries tdbUpd).savedMeta = none ∧
    ∀ (env : Option String) (msg : String), get_capture_id_key env = Except.error msg →
      msg ≠ "No capture IDs found from any source" := by
  have hseed0 : (if keepExisting then existing else ([] : Dict)) = [] := by
    rcases hseed with h | h
    · simp [h]
    · simp [h]
  have hres : mainWithKey key sel dryRun keepExisting existing existingMeta now swRows swUpd
      nswRecs nswUpd tdbEntries tdbUpd =
      ⟨1, ["No capture IDs found from any source"],
        (sourceStep (selIncludes sel SourceSel.titledb) "titledb"
          (fetch_titledb tdbEntries tdbUpd key)
          (sourceStep (selIncludes sel SourceSel.nswdb) "nswdb"
            (fetch_nswdb nswRecs nswUpd key)
            (sourceStep (selIncludes sel SourceSel.switchbrew) "switchbrew"
              (fetch_switchbrew swRows swUpd key)
              (if keepExisting then existing else [], [], [])))).2.2, none, none⟩ := by
    unfold mainWithKey
    rw [if_pos]
    unfold sourceStep
    rw [hsw, hnsw, htdb, hseed0]
    cases selIncludes sel SourceSel.switchbrew <;>
      cases selIncludes sel SourceSel.nswdb <;>
      cases selIncludes sel SourceSel.titledb <;> simp [dictUpdate]
  refine ⟨by rw [hres], by rw [hres], by rw [hres], by rw [hres], ?_⟩
  intro env msg h hmsg
  have hmem := get_capture_id_key_error_mem env msg h
  subst hmsg
  revert hmem
  decide

/-- Witness for C8 (amended): a plain run (no `--keep-existing`) with no
records from any source. -/
theorem c8_empty_run_reported_amended_witness :
    ((false : Bool) = false ∨ ([] : Dict) = []) ∧
    ((fetch_switchbrew [] none (List.replicate 16 0)).captureIds = []) ∧
    ((fetch_nswdb [] none (List.replicate 16 0)).captureIds = []) ∧
    ((fetch_titledb [] none (List.replicate 16 0)).captureIds = []) ∧
    (mainWithKey (List.replicate 16 0) SourceSel.all false false [] none "T" [] none [] none
        [] none).exitCode = 1 ∧
    (mainWithKey (List.replicate 16 0) SourceSel.all false false [] none "T" [] none [] none
        [] none).errorLog = ["No capture IDs found from any source"] :=
  have h := c8_empty_run_reported_amended (List.replicate 16 0) SourceSel.all false false []
    none "T" [] none [] none [] none (Or.inl rfl) (by decide) (by decide) (by decide)
  ⟨Or.inl rfl, by decide, by decide, by decide, h.1, h.2.1⟩

/-- C10: if a `--keep-existing` run is seeded with a nonempty
previously-persisted mapping, then even when every source contributes zero
records the run does not signal the empty-result failure: it exits 0, logs
no error, and writes exactly the seeded entries (sorted for serialization,
a permutation of the seed, so no entry is changed). -/
theorem c10_seed_bypasses_empty_check (key : List Nat) (sel : SourceSel) (existing : Dict)
    (existingMeta : Option Metadata) (now : String) (swRows : List SwRow)
    (swUpd : Option String) (nswRecs : List NswRec) (nswUpd : Option String)
    (tdbEntries : List TdbEntry) (tdbUpd : Option String)
    (hne : existing ≠ [])
    (hsw : (fetch_switchbrew swRows swUpd key).captureIds = [])
    (hnsw : (fetch_nswdb nswRecs nswUpd key).captureIds = [])
    (htdb : (fetch_titledb tdbEntries tdbUpd key).captureIds = []) :
    (mainWithKey key sel false true existing existingMeta now swRows swUpd nswRecs nswUpd
        tdbEntries tdbUpd).exitCode = 0 ∧
    (mainWithKey key sel false true existing existingMeta now swRows swUpd nswRecs nswUpd
        tdbEntries tdbUpd).errorLog = [] ∧
    (mainWithKey key sel false true existing existingMeta now swRows swUpd nswRecs nswUpd
        tdbEntries tdbUpd).savedMapping = some (sortCaptureIds existing) ∧
    List.Perm (sortCaptureIds existing) existing := by
  have hstep : ∀ (b : Bool) (name : String) (res : FetchResult)
      (acc : Dict × List (String × SourceInfo) × List String), res.captureIds = [] →
      (sourceStep b name res acc).1 = acc.1 := by
    intro b name res acc hres0
    unfold sourceStep
    cases b <;> simp [hres0, dictUpdate]
  have hcaps : (sourceStep (selIncludes sel SourceSel.titledb) "titledb"
      (fetch_titledb tdbEntries tdbUpd key)
      (sourceStep (selIncludes sel SourceSel.nswdb) "nswdb" (fetch_nswdb nswRecs nswUpd key)
        (sourceStep (selIncludes sel SourceSel.switchbrew) "switchbrew"
          (fetch_switchbrew swRows swUpd key) (existing, [], [])))).1 = existing := by
    rw [hstep _ _ _ _ htdb, hstep _ _ _ _ hnsw, hstep _ _ _ _ hsw]
  refine ⟨?_, ?_, ?_, List.mergeSort_perm existing labelLe⟩ <;>
    · simp only [mainWithKey, save_capture_ids, eq_self_iff_true, if_true]
      rw [hcaps, if_neg hne]
      try simp

/-- Witness for C10: seeded with one entry, zero records from every
source. -/
theorem c10_seed_bypasses_empty_check_witness :
    (([("X", "A (USA)")] : Dict) ≠ []) ∧
    ((fetch_switchbrew [] none (List.replicate 16 0)).captureIds = []) ∧
    ((fetch_nswdb [] none (List.replicate 16 0)).captureIds = []) ∧
    ((fetch_titledb [] none (List.replicate 16 0)).captureIds = []) ∧
    (mainWithKey (List.replicate 16 0) SourceSel.all false true [("X", "A (USA)")] none "T"
        [] none [] none [] none).exitCode = 0 ∧
    (mainWithKey (List.replicate 16 0) SourceSel.all false true [("X", "A (USA)")] none "T"
        [] none [] none [] none).savedMapping =
      some (sortCaptureIds [("X", "A (USA)")]) :=
  have h := c10_seed_bypasses_empty_check (List.replicate 16 0) SourceSel.all
    [("X", "A (USA)")] none "T" [] none [] none [] none (by decide) (by decide) (by decide)
    (by decide)
  ⟨by decide, by decide, by decide, by decide, h.1, h.2.2.1⟩

/-! ## Claim C9: serialization order -/

theorem labelLe_trans : ∀ a b c : String × String,
    labelLe a b = true → labelLe b c = true → labelLe a c = true := by
  intro a b c hab hbc
  simp only [labelLe, decide_eq_true_eq] at *
  exact le_trans hab hbc

theorem labelLe_total : ∀ a b : String × String, labelLe a b || labelLe b a := by
  intro a b
  simp only [labelLe]
  rcases le_total (pyLower a.2) (pyLower b.2) with h | h <;> simp [h]

/-- C9: the serialized mapping is sorted by the lowercased game label, it
is a permutation of the merged mapping, and the sort is stable: the
restriction to any fixed lowercased-label value is exactly the same
subsequence, in the same order, as in the input. -/
theorem c9_sorted_stable (d : Dict) :
    List.Pairwise (fun a b => labelLe a b = true) (sortCaptureIds d) ∧
    List.Perm (sortCaptureIds d) d ∧
    ∀ keyStr : String,
      (sortCaptureIds d).filter (fun p => pyLower p.2 == keyStr) =
        d.filter (fun p => pyLower p.2 == keyStr) := by
  refine ⟨List.sorted_mergeSort labelLe_trans labelLe_total d, List.mergeSort_perm d labelLe,
    fun keyStr => ?_⟩
  have hsub : List.Sublist (d.filter fun p => pyLower p.2 == keyStr) (sortCaptureIds d) := by
    apply List.sublist_mergeSort labelLe_trans labelLe_total
    · apply List.pairwise_of_forall_mem_list
      intro a ha b hb
      have ha2 := (List.mem_filter.mp ha).2
      have hb2 := (List.mem_filter.mp hb).2
      simp only [beq_iff_eq] at ha2 hb2
      simp [labelLe, ha2, hb2]
    · exact List.filter_sublist d
  have hsub2 : List.Sublist (d.filter fun p => pyLower p.2 == keyStr)
      ((sortCaptureIds d).filter fun p => pyLower p.2 == keyStr) := by
    have := hsub.filter fun p => pyLower p.2 == keyStr
    rwa [List.filter_eq_self.mpr (fun a ha => (List.mem_filter.mp ha).2)] at this
  have hperm : List.Perm ((sortCaptureIds d).filter fun p => pyLower p.2 == keyStr)
      (d.filter fun p => pyLower p.2 == keyStr) :=
    (List.mergeSort_perm d labelLe).filter _
  exact (hsub2.eq_of_length hperm.length_eq.symm).symm

